import Mathlib

/-!
# A shallow embedding of the `simple_compiler` virtual machine

This file embeds the stack-based VM of the repository (the modules under
`src/vm/`: `exec.rs`, `runtime.rs`, `reactive.rs`, `env.rs`, `call.rs`,
`mod.rs`) and proves the specification claims about it.

Modelling conventions:
* Rust `i32` arithmetic is modelled on unbounded `Int` with an explicit
  two's-complement wrap `wrap32` applied where the source performs `i32`
  arithmetic (release-mode wrapping semantics); `u32` code points are `Nat`
  reduced modulo `2 ^ 32` where the source wraps.
* `HashMap<String, _>` becomes an association list with insert-replaces
  semantics (`alistInsert`); `HashSet` becomes a duplicate-free list.
  Iteration order of a hash map is unspecified in the source, so the
  association-list order carries no information used by any theorem.
* Rust `Vec` stacks (operand stack, immutable scope stack, call stack) are
  Lean lists with the *head* as the top of the stack; consequently the
  source's `immutable_stack[0]` (the root frame) is `getLast?` here, and
  `iter().rev()` lookups walk the list front to back.
* Every panic (`panic!`, `expect`, slice-index panic, arithmetic fault)
  is `none`; the interpreter functions return `Option`.
* The mutually recursive executor is given explicit fuel; every recursive
  call consumes one unit, so termination is structural on the fuel.
-/

namespace ReactiveVM

/-- Two's-complement wrap of an unbounded integer into `i32` range
(Rust release-mode wrapping arithmetic on `i32`). -/
def wrap32 (n : Int) : Int := (n + 2 ^ 31) % 2 ^ 32 - 2 ^ 31

/-- Rust `c as i32` on a `u32`/`usize` value: truncate to the low 32 bits and
reinterpret in two's complement. -/
def toI32 (c : Nat) : Int :=
  if c % 2 ^ 32 < 2 ^ 31 then ((c % 2 ^ 32 : Nat) : Int)
  else ((c % 2 ^ 32 : Nat) : Int) - 2 ^ 32

/-- Rust `n as u32` on an `i32` value: reinterpret in binary, i.e. reduce
modulo `2 ^ 32` into `[0, 2^32)`. -/
def asU32 (n : Int) : Nat := (n % 2 ^ 32).toNat

/-- `grammar.rs` `Operator` as consumed by the VM (`reactive.rs` matches a
`Modulo` case, so the VM revision of the enum includes it). -/
inductive Operator
  | Addition | Multiplication | Division | Subtraction
  | Greater | Less | GreaterEqual | LessEqual | NotEqual | Equal
  | Or | And | Modulo
deriving Repr, DecidableEq

/-- `grammar.rs` `FieldAssignKind`. -/
inductive FieldAssignKind
  | Normal | Reactive | Immutable
deriving Repr, DecidableEq

/-- The three payload-carrying constructors of `grammar.rs`
`StructFieldInit`; the payload `AST` is attached as a pair
(`StructFieldInitKind × AST`) to avoid a mutual inductive. -/
inductive StructFieldInitKind
  | Mutable | Immutable | Reactive
deriving Repr, DecidableEq

/-- `grammar.rs` `AST`, as consumed by the VM revision (it includes `Char`,
`StringLiteral` — carried as its list of code points — and `Ternary`, which
the VM's `eval_value` matches on).  A struct field declaration is
`String × Option (StructFieldInitKind × AST)`. -/
inductive AST
  | Number (n : Int)
  | Char (c : Nat)
  | StringLiteral (s : List Nat)
  | Var (name : String)
  | Operation (l : AST) (op : Operator) (r : AST)
  | Ternary (cond then_expr else_expr : AST)
  | ArrayNew (size : AST)
  | Index (base idx : AST)
  | FieldAccess (base : AST) (field : String)
  | Call (name : String) (args : List AST)
  | Assign (name : String) (rhs : AST)
  | ReactiveAssign (name : String) (rhs : AST)
  | ImmutableAssign (name : String) (rhs : AST)
  | AssignTarget (target value : AST)
  | ReactiveAssignTarget (target value : AST)
  | ImmutableAssignTarget (target value : AST)
  | FieldAssign (base : AST) (field : String) (value : AST) (kind : FieldAssignKind)
  | Program (stmts : List AST)
  | Print (e : AST)
  | Println (e : AST)
  | IfElse (cond : AST) (then_block else_block : List AST)
  | Loop (body : List AST)
  | Break
  | Return (e : Option AST)
  | FuncDef (name : String) (params : List String) (body : List AST)
  | StructDef (name : String) (fields : List (String × Option (StructFieldInitKind × AST)))
  | StructNew (name : String)
  | Import (path : List String)
deriving Repr

/-- `grammar.rs` `LValue`: a reified assignment path. -/
inductive LValue
  | ArrayElem (array_id index : Nat)
  | StructField (struct_id : Nat) (field : String)
deriving Repr, DecidableEq

/-- `grammar.rs` `Type` as used by the VM revision (`Integer`, `Char`,
`ArrayRef`, `StructRef`, `Function`, `LazyValue` with its captured map,
`LValue`, `Uninitialized`).  Named `Ty` because `Type` is reserved in Lean. -/
inductive Ty
  | Integer (n : Int)
  | Char (c : Nat)
  | ArrayRef (id : Nat)
  | StructRef (id : Nat)
  | Function (params : List String) (body : List AST)
  | LazyValue (ast : AST) (captured : List (String × Ty))
  | LValue (lv : LValue)
  | Uninitialized
deriving Repr

/-- A mutable or immutable environment frame: `HashMap<String, Type>` as an
association list. -/
abbrev Env := List (String × Ty)

/-- `grammar.rs` `StructInstance`. -/
structure StructInstance where
  fields : Env
  immutables : List String
deriving Repr

/-- `grammar.rs` `Instruction`, with the extra cases the VM executor
(`exec.rs`) matches on (`PushChar`, `Modulo`, `StoreThroughImmutable`). -/
inductive Instruction
  | Push (n : Int)
  | PushChar (c : Nat)
  | Load (name : String)
  | Store (name : String)
  | StoreImmutable (name : String)
  | StoreReactive (name : String) (ast : AST)
  | Add | Sub | Mul | Div | Modulo
  | Greater | Less | Equal | NotEqual | GreaterEqual | LessEqual
  | And | Or
  | Print | Println
  | ArrayNew | ArrayGet
  | StoreIndex (name : String)
  | StoreIndexReactive (name : String) (ast : AST)
  | StoreFunction (name : String) (params : List String) (body : List AST)
  | Call (name : String) (argc : Nat)
  | StoreStruct (name : String) (fields : List (String × Option (StructFieldInitKind × AST)))
  | NewStruct (name : String)
  | FieldGet (field : String)
  | FieldSet (field : String)
  | FieldSetReactive (field : String) (ast : AST)
  | PushImmutableContext | PopImmutableContext | ClearImmutableContext
  | Label (name : String)
  | Jump (label : String)
  | JumpIfZero (label : String)
  | Return
  | ArrayLValue
  | FieldLValue (field : String)
  | StoreThrough
  | StoreThroughReactive (ast : AST)
  | StoreThroughImmutable
  | Import (path : List String)
deriving Repr

/-- One item written to standard output (`print_value`). -/
inductive Out
  | int (n : Int)
  | ch (c : Nat)
  | newline
deriving Repr, DecidableEq

/-- `vm/call.rs` `CallFrame`: the saved executor context. -/
structure CallFrame where
  code : List Instruction
  labels : List (String × Nat)
  pointer : Nat
  local_env : Option Env
  immutable_stack : List Env
  stack_base : Nat
deriving Repr

/-- `vm/mod.rs` `struct VM`: the whole machine state.  The two debug fields
carry no semantics and are omitted; `output` models what the VM prints. -/
structure VMState where
  stack : List Ty
  global_env : Env
  local_env : Option Env
  immutable_stack : List Env
  pointer : Nat
  code : List Instruction
  labels : List (String × Nat)
  struct_defs : List (String × List (String × Option (StructFieldInitKind × AST)))
  heap : List StructInstance
  array_heap : List (List Ty)
  array_immutables : List (List Nat)
  imported_modules : List String
  call_stack : List CallFrame
  output : List Out
deriving Repr

/-- Association-list lookup (`HashMap::get`). -/
def alistGet {α : Type} (m : List (String × α)) (k : String) : Option α :=
  match m with
  | [] => none
  | (k', v) :: rest => if k' == k then some v else alistGet rest k

/-- Association-list insert (`HashMap::insert`): the new binding replaces any
previous binding of the same key. -/
def alistInsert {α : Type} (m : List (String × α)) (k : String) (v : α) :
    List (String × α) :=
  (k, v) :: m.filter (fun p => !(p.1 == k))

/-- `HashSet::insert` on a duplicate-free list. -/
def setInsert {α : Type} [BEq α] (s : List α) (x : α) : List α :=
  if s.contains x then s else x :: s

/-- `vm/env.rs` `find_immutable`: innermost immutable frame first (the head
of the list is the innermost frame). -/
def find_immutable (frames : List Env) (name : String) : Option Ty :=
  match frames with
  | [] => none
  | f :: rest =>
    match alistGet f name with
    | some v => some v
    | none => find_immutable rest name

/-- `vm/env.rs` `lookup_var`: immutable frames, then the local map (if inside
a call), then the global map. -/
def lookup_var (s : VMState) (name : String) : Option Ty :=
  match find_immutable s.immutable_stack name with
  | some v => some v
  | none =>
    match s.local_env.bind (fun e => alistGet e name) with
    | some v => some v
    | none => alistGet s.global_env name

/-- `vm/env.rs` `immutable_exists`. -/
def immutable_exists (s : VMState) (name : String) : Bool :=
  (find_immutable s.immutable_stack name).isSome

/-- `vm/env.rs` `ensure_mutable_binding`: inside a function (a local map is
present) the check is skipped entirely; at the top level the store is
rejected (`none`) when an immutable binding of the name is in scope. -/
def ensure_mutable_binding (s : VMState) (name : String) : Option Unit :=
  if s.local_env.isSome then some ()
  else if immutable_exists s name then none
  else some ()

mutual
/-- `vm/reactive.rs` `ast_free_vars`: free-name collection over the reactive
expression forms (with an accumulator standing for the `HashSet`). -/
def ast_free_vars (ast : AST) (out : List String) : List String :=
  match ast with
  | .Var n => setInsert out n
  | .Operation l _ r => ast_free_vars r (ast_free_vars l out)
  | .Index b i => ast_free_vars i (ast_free_vars b out)
  | .FieldAccess b _ => ast_free_vars b out
  | .Ternary c t e => ast_free_vars e (ast_free_vars t (ast_free_vars c out))
  | .Call _ args => ast_free_vars_list args out
  | _ => out

/-- Free-name collection over a list of call arguments. -/
def ast_free_vars_list (asts : List AST) (out : List String) : List String :=
  match asts with
  | [] => out
  | a :: rest => ast_free_vars_list rest (ast_free_vars a out)
end

/-- `vm/reactive.rs` `capture_immutables_for_ast`: snapshot, for each free
name of the expression, the value it resolves to in the *current immutable
scope stack* (names that resolve only mutably are not captured). -/
def capture_immutables_for_ast (frames : List Env) (ast : AST) : Env :=
  (ast_free_vars ast []).foldl
    (fun cap n =>
      match find_immutable frames n with
      | some v => alistInsert cap n v
      | none => cap)
    []

/-- `vm/reactive.rs` `freeze_ast`: replace `Var x` by a literal when `x`
resolves to an immutable *integer* in the current immutable stack. -/
def freeze_ast (frames : List Env) (ast : AST) : AST :=
  match ast with
  | .Var name =>
    match find_immutable frames name with
    | some (.Integer n) => .Number n
    | _ => .Var name
  | .Number n => .Number n
  | .Char c => .Char c
  | .Operation l o r => .Operation (freeze_ast frames l) o (freeze_ast frames r)
  | .Index b i => .Index (freeze_ast frames b) (freeze_ast frames i)
  | .FieldAccess b f => .FieldAccess (freeze_ast frames b) f
  | .Ternary c t e =>
    .Ternary (freeze_ast frames c) (freeze_ast frames t) (freeze_ast frames e)
  | other => other

/-- `vm/runtime.rs` `read_lvalue`: read the current value behind a path.
Out-of-range arena ids and indices panic in the source (`none` here). -/
def read_lvalue (s : VMState) (lv : LValue) : Option Ty :=
  match lv with
  | .ArrayElem array_id index =>
    match s.array_heap[array_id]? with
    | none => none
    | some arr => if index < arr.length then arr[index]? else none
  | .StructField struct_id field =>
    (s.heap[struct_id]?).bind (fun inst => alistGet inst.fields field)

/-- `vm/runtime.rs` `force_to_storable`: dereference any `LValue`; keep a
`LazyValue` as-is ("keep relationships attached to locations"). -/
def force_to_storable (fuel : Nat) (s : VMState) (v : Ty) : Option Ty :=
  match fuel with
  | 0 => none
  | fuel + 1 =>
    match v with
    | .LValue lv => (read_lvalue s lv).bind (force_to_storable fuel s)
    | .LazyValue ast captured => some (.LazyValue ast captured)
    | other => some other

/-- `vm/runtime.rs` `clone_value`: arrays and records get a fresh arena id
whose slot is a copy of the source slot (for arrays, together with its
element-immutability set); every other value is returned unchanged, and
cloning an `LValue` panics. -/
def clone_value (s : VMState) (v : Ty) : Option (Ty × VMState) :=
  match v with
  | .ArrayRef id =>
    match s.array_heap[id]?, s.array_immutables[id]? with
    | some arr, some imm =>
      some (.ArrayRef s.array_heap.length,
        { s with
          array_heap := s.array_heap ++ [arr]
          array_immutables := s.array_immutables ++ [imm] })
    | _, _ => none
  | .StructRef id =>
    (s.heap[id]?).map
      (fun inst => (.StructRef s.heap.length, { s with heap := s.heap ++ [inst] }))
  | .LValue _ => none
  | other => some (other, s)

/-- `vm/mod.rs` `build_labels`: map each `Label(name)` to its offset. -/
def build_labels (code : List Instruction) : List (String × Nat) :=
  (go code 0 []).reverse
where
  go : List Instruction → Nat → List (String × Nat) → List (String × Nat)
  | [], _, acc => acc
  | instr :: rest, i, acc =>
    match instr with
    | .Label name => go rest (i + 1) (alistInsert acc name i)
    | _ => go rest (i + 1) acc

/-- `vm/runtime.rs` `pop` (operand-stack pop; underflow panics). -/
def pop (s : VMState) : Option (Ty × VMState) :=
  match s.stack with
  | [] => none
  | v :: rest => some (v, { s with stack := rest })

/-- `vm/runtime.rs` `pop_args`: pop `argc` values and reverse them back into
push order. -/
def pop_args (argc : Nat) (s : VMState) : Option (List Ty × VMState) :=
  match argc with
  | 0 => some ([], s)
  | n + 1 => do
    let (v, s₁) ← pop s
    let (vs, s₂) ← pop_args n s₁
    some (vs ++ [v], s₂)

/-- `vm/mod.rs` `VM::new`. -/
def VM_new (code : List Instruction) : VMState :=
  { stack := []
    global_env := []
    local_env := none
    immutable_stack := [[]]
    pointer := 0
    code := code
    labels := build_labels code
    struct_defs := []
    heap := []
    array_heap := []
    array_immutables := []
    imported_modules := []
    call_stack := []
    output := [] }

/-- Modelled from the spec: operator lowering (spec §4.2; `src/compiler.rs`
`emit_operator` targets a different instruction vocabulary, so the compiler
revision matching this VM is not under `src/`). -/
def emit_operator (op : Operator) : Instruction :=
  match op with
  | .Addition => .Add
  | .Subtraction => .Sub
  | .Multiplication => .Mul
  | .Division => .Div
  | .Modulo => .Modulo
  | .Greater => .Greater
  | .Less => .Less
  | .Equal => .Equal
  | .NotEqual => .NotEqual
  | .GreaterEqual => .GreaterEqual
  | .LessEqual => .LessEqual
  | .And => .And
  | .Or => .Or

/-- Modelled from the spec: the per-code-point stores of a lowered string
literal (spec §4.2, "String literal"). -/
def strlit_stores (tmp : String) (cs : List Nat) (i : Nat) : List Instruction :=
  match cs with
  | [] => []
  | c :: rest =>
    [.Load tmp, .Push (i : Int), .ArrayLValue, .PushChar c, .StoreThrough]
      ++ strlit_stores tmp rest (i + 1)

/-- Modelled from the spec: fresh-label generation (spec §4.2; the counter is
threaded explicitly). -/
def fresh_label (prefix_ : String) (lg : Nat) : String × Nat :=
  (prefix_ ++ "_" ++ toString lg, lg + 1)

mutual
/-- Modelled from the spec: the statement/rvalue compiler for this VM's
instruction vocabulary (spec §4.2).  `src/compiler.rs` is a later revision
that emits pre-lowered thunk records and `Cast` instructions this VM does not
execute; in the VM revision reactive payloads are carried as raw `AST` and
function/struct bodies are installed unlowered.  The label counter and the
break stack (innermost loop end label at the head) are threaded explicitly;
compile errors (invalid assignment target, `break` outside a loop, missing
`main`) are `none`. -/
def compile (ast : AST) (lg : Nat) (bs : List String) :
    Option (List Instruction × Nat) :=
  match ast with
  | .Number n => some ([.Push n], lg)
  | .Char c => some ([.PushChar c], lg)
  | .Var name => some ([.Load name], lg)
  | .StringLiteral cs =>
    let (tmp, lg₁) := fresh_label "strlit" lg
    some ([.Push (cs.length : Int), .ArrayNew, .Store tmp]
      ++ strlit_stores tmp cs 0 ++ [.Load tmp], lg₁)
  | .Operation l op r => do
    let (cl, lg₁) ← compile l lg bs
    let (cr, lg₂) ← compile r lg₁ bs
    some (cl ++ cr ++ [emit_operator op], lg₂)
  | .Ternary c t e => do
    let (cc, lg₁) ← compile c lg bs
    let (else_lbl, lg₂) := fresh_label "ternary_else" lg₁
    let (end_lbl, lg₃) := fresh_label "ternary_end" lg₂
    let (ct, lg₄) ← compile t lg₃ bs
    let (ce, lg₅) ← compile e lg₄ bs
    some (cc ++ [.JumpIfZero else_lbl] ++ ct ++ [.Jump end_lbl, .Label else_lbl]
      ++ ce ++ [.Label end_lbl], lg₅)
  | .ArrayNew size => do
    let (cs', lg₁) ← compile size lg bs
    some (cs' ++ [.ArrayNew], lg₁)
  | .Index b i => do
    let (cb, lg₁) ← compile b lg bs
    let (ci, lg₂) ← compile i lg₁ bs
    some (cb ++ ci ++ [.ArrayGet], lg₂)
  | .FieldAccess b f => do
    let (cb, lg₁) ← compile b lg bs
    some (cb ++ [.FieldGet f], lg₁)
  | .Call name args => do
    let (ca, lg₁) ← compile_list args lg bs
    some (ca ++ [.Call name args.length], lg₁)
  | .Assign name e => do
    let (ce, lg₁) ← compile e lg bs
    some (ce ++ [.Store name], lg₁)
  | .ImmutableAssign name e => do
    let (ce, lg₁) ← compile e lg bs
    some (ce ++ [.StoreImmutable name], lg₁)
  | .ReactiveAssign name e => some ([.StoreReactive name e], lg)
  | .AssignTarget t v => do
    let (ct, lg₁) ← compile_lvalue t lg bs
    let (cv, lg₂) ← compile v lg₁ bs
    some (ct ++ cv ++ [.StoreThrough], lg₂)
  | .ReactiveAssignTarget t v => do
    let (ct, lg₁) ← compile_lvalue t lg bs
    some (ct ++ [.StoreThroughReactive v], lg₁)
  | .ImmutableAssignTarget t v => do
    let (ct, lg₁) ← compile_lvalue t lg bs
    let (cv, lg₂) ← compile v lg₁ bs
    some (ct ++ cv ++ [.StoreThroughImmutable], lg₂)
  | .FieldAssign base f v kind =>
    match kind with
    | .Normal => do
      let (cb, lg₁) ← compile base lg bs
      let (cv, lg₂) ← compile v lg₁ bs
      some (cb ++ cv ++ [.FieldSet f], lg₂)
    | .Reactive => do
      let (cb, lg₁) ← compile base lg bs
      some (cb ++ [.FieldSetReactive f v], lg₁)
    | .Immutable => none
  | .IfElse c tb eb => do
    let (cc, lg₁) ← compile c lg bs
    let (else_lbl, lg₂) := fresh_label "else" lg₁
    let (end_lbl, lg₃) := fresh_label "ifend" lg₂
    let (ctb, lg₄) ← compile_list tb lg₃ bs
    let (ceb, lg₅) ← compile_list eb lg₄ bs
    some (cc ++ [.JumpIfZero else_lbl, .PushImmutableContext] ++ ctb
      ++ [.PopImmutableContext, .Jump end_lbl, .Label else_lbl, .PushImmutableContext]
      ++ ceb ++ [.PopImmutableContext, .Label end_lbl], lg₅)
  | .Loop body => do
    let (start_lbl, lg₁) := fresh_label "loop_start" lg
    let (end_lbl, lg₂) := fresh_label "loop_end" lg₁
    let (cb, lg₃) ← compile_list body lg₂ (end_lbl :: bs)
    some ([.PushImmutableContext, .Label start_lbl, .ClearImmutableContext] ++ cb
      ++ [.Jump start_lbl, .Label end_lbl, .PopImmutableContext], lg₃)
  | .Break =>
    match bs with
    | [] => none
    | target :: _ => some ([.Jump target], lg)
  | .Return e =>
    match e with
    | some e' => do
      let (ce, lg₁) ← compile e' lg bs
      some (ce ++ [.Return], lg₁)
    | none => some ([.Push 0, .Return], lg)
  | .FuncDef name params body => some ([.StoreFunction name params body], lg)
  | .StructDef name fields => some ([.StoreStruct name fields], lg)
  | .StructNew name => some ([.NewStruct name], lg)
  | .Import path => some ([.Import path], lg)
  | .Program stmts => do
    let (cp, lg₁) ← compile_list stmts lg bs
    let has_main := stmts.any (fun st =>
      match st with
      | .FuncDef n _ _ => n == "main"
      | _ => false)
    if has_main then some (cp ++ [.Call "main" 0, .Return], lg₁) else none
  | .Print e => do
    let (ce, lg₁) ← compile e lg bs
    some (ce ++ [.Print], lg₁)
  | .Println e => do
    let (ce, lg₁) ← compile e lg bs
    some (ce ++ [.Println], lg₁)

/-- Modelled from the spec: lvalue compilation (spec §4.2, "Dual compilation
modes"): a `load` for the innermost name, then a path step per postfix. -/
def compile_lvalue (ast : AST) (lg : Nat) (bs : List String) :
    Option (List Instruction × Nat) :=
  match ast with
  | .Var name => some ([.Load name], lg)
  | .Index base index => do
    let (cb, lg₁) ← compile_lvalue base lg bs
    let (ci, lg₂) ← compile index lg₁ bs
    some (cb ++ ci ++ [.ArrayLValue], lg₂)
  | .FieldAccess base f => do
    let (cb, lg₁) ← compile_lvalue base lg bs
    some (cb ++ [.FieldLValue f], lg₁)
  | _ => none

/-- Modelled from the spec: statement-list compilation in source order. -/
def compile_list (stmts : List AST) (lg : Nat) (bs : List String) :
    Option (List Instruction × Nat) :=
  match stmts with
  | [] => some ([], lg)
  | st :: rest => do
    let (c₁, lg₁) ← compile st lg bs
    let (c₂, lg₂) ← compile_list rest lg₁ bs
    some (c₁ ++ c₂, lg₂)
end

/-- `vm/call.rs` `call_function`, compilation step: lower each body statement
with a fresh label generator and empty break stack, then append `Return`. -/
def compile_function_body (body : List AST) : Option (List Instruction) :=
  (compile_list body 0 []).map (fun p => p.1 ++ [.Return])

/-- `vm/exec.rs` `exec_store`: check the mutability policy, pop the value,
write the local map when inside a function, else the global map. -/
def exec_store (s : VMState) (name : String) : Option VMState := do
  let _ ← ensure_mutable_binding s name
  let (v, s₁) ← pop s
  match s₁.local_env with
  | some env => some { s₁ with local_env := some (alistInsert env name v) }
  | none => some { s₁ with global_env := alistInsert s₁.global_env name v }

/-- `vm/exec.rs` `exec_store_immutable`: write the *top* immutable frame;
reject when that frame already binds the name. -/
def exec_store_immutable (s : VMState) (name : String) : Option VMState := do
  let (v, s₁) ← pop s
  match s₁.immutable_stack with
  | [] => none
  | scope :: rest =>
    if (alistGet scope name).isSome then none
    else some { s₁ with immutable_stack := alistInsert scope name v :: rest }

/-- `vm/exec.rs` `exec_store_reactive`: same mutability policy as a mutable
store; freeze the expression against the current immutable stack, capture the
immutably-resolving free names, and store the `LazyValue`. -/
def exec_store_reactive (s : VMState) (name : String) (ast : AST) :
    Option VMState := do
  let _ ← ensure_mutable_binding s name
  let frozen := freeze_ast s.immutable_stack ast
  let captured := capture_immutables_for_ast s.immutable_stack frozen
  match s.local_env with
  | some env =>
    some { s with local_env := some (alistInsert env name (.LazyValue frozen captured)) }
  | none =>
    some { s with global_env := alistInsert s.global_env name (.LazyValue frozen captured) }

/-- `vm/runtime.rs` `exec_store_through`: pop value then target, force the
value to a storable, then write through the path after the immutability and
bounds checks. -/
def exec_store_through (fuel : Nat) (s : VMState) : Option VMState := do
  let (value, s₁) ← pop s
  let (target, s₂) ← pop s₁
  let stored ← force_to_storable fuel s₂ value
  match target with
  | .LValue (.ArrayElem array_id index) => do
    let imm ← s₂.array_immutables[array_id]?
    if imm.contains index then none
    else do
      let arr ← s₂.array_heap[array_id]?
      if index < arr.length then
        some { s₂ with array_heap := s₂.array_heap.set array_id (arr.set index stored) }
      else none
  | .LValue (.StructField struct_id field) => do
    let inst ← s₂.heap[struct_id]?
    if (alistGet inst.fields field).isNone then none
    else if inst.immutables.contains field then none
    else
      let inst' := { inst with fields := alistInsert inst.fields field stored }
      some { s₂ with heap := s₂.heap.set struct_id inst' }
  | _ => none

/-- `vm/runtime.rs` `exec_store_through_reactive`: like `exec_store_through`
with a frozen thunk as the stored value; on a struct-field target the field
is additionally inserted into the instance's immutable set. -/
def exec_store_through_reactive (s : VMState) (ast : AST) : Option VMState := do
  let (target, s₁) ← pop s
  let frozen := freeze_ast s₁.immutable_stack ast
  let captured := capture_immutables_for_ast s₁.immutable_stack frozen
  match target with
  | .LValue (.ArrayElem array_id index) => do
    let imm ← s₁.array_immutables[array_id]?
    if imm.contains index then none
    else do
      let arr ← s₁.array_heap[array_id]?
      if index < arr.length then
        some { s₁ with array_heap :=
          s₁.array_heap.set array_id (arr.set index (.LazyValue frozen captured)) }
      else none
  | .LValue (.StructField struct_id field) => do
    let inst ← s₁.heap[struct_id]?
    if (alistGet inst.fields field).isNone then none
    else if inst.immutables.contains field then none
    else
      let inst' :=
        { inst with
          fields := alistInsert inst.fields field (.LazyValue frozen captured)
          immutables := setInsert inst.immutables field }
      some { s₁ with heap := s₁.heap.set struct_id inst' }
  | _ => none

/-- `vm/runtime.rs` `store_through_immutable`: a one-shot write.  On a struct
field it succeeds exactly when the field currently holds `Uninitialized`, and
then marks the field immutable; on an array element it succeeds when the
index is not yet element-immutable, and then marks it. -/
def store_through_immutable (fuel : Nat) (s : VMState) : Option VMState := do
  let (value, s₁) ← pop s
  let (target, s₂) ← pop s₁
  let stored ← force_to_storable fuel s₂ value
  match target with
  | .LValue (.StructField struct_id field) => do
    let inst ← s₂.heap[struct_id]?
    match alistGet inst.fields field with
    | some .Uninitialized =>
      let inst' :=
        { inst with
          fields := alistInsert inst.fields field stored
          immutables := setInsert inst.immutables field }
      some { s₂ with heap := s₂.heap.set struct_id inst' }
    | some _ => none
    | none => none
  | .LValue (.ArrayElem array_id index) => do
    let imm ← s₂.array_immutables[array_id]?
    if imm.contains index then none
    else do
      let arr ← s₂.array_heap[array_id]?
      if index < arr.length then
        some { s₂ with
          array_heap := s₂.array_heap.set array_id (arr.set index stored)
          array_immutables := s₂.array_immutables.set array_id (setInsert imm index) }
      else none
  | _ => none

/-- `vm/call.rs` `call_function`, parameter binding: zip the parameter names
with the argument values (extra arguments are dropped by `zip`; missing
parameters are simply never inserted). -/
def param_scope (params : List String) (args : List Ty) : Env :=
  (params.zip args).foldl (fun m pv => alistInsert m pv.1 pv.2) []

/-- `vm/call.rs` `pop_frame`: the return value is the value above the saved
operand-stack base, or `Integer 0`; the caller's context is restored. -/
def pop_frame (s : VMState) : Option (Ty × VMState) :=
  match s.call_stack with
  | [] => none
  | frame :: rest =>
    let restore := fun (stk : List Ty) =>
      { s with
        stack := stk
        code := frame.code
        labels := frame.labels
        pointer := frame.pointer
        local_env := frame.local_env
        immutable_stack := frame.immutable_stack
        call_stack := rest }
    if frame.stack_base < s.stack.length then
      match s.stack with
      | v :: stk => some (v, restore stk)
      | [] => none
    else some (.Integer 0, restore s.stack)

/-- Rust `char::from_u32` success predicate (a Unicode scalar value). -/
def valid_scalar (c : Nat) : Bool :=
  decide (c < 0xD800 ∨ (0xE000 ≤ c ∧ c < 0x110000))
/-- One level of the mutually recursive executor.  The Rust functions
(`run`, `force`, `eval_value`, `call_function`, …) form a single recursive
family; to keep the embedding's termination trivial they are collected into a
record of functions, and `interp` builds the family by recursion on the fuel:
every recursive call in the source becomes a call into the next-lower level.
The top-level definitions below (`run`, `force`, …) carry the source names. -/
structure Interp where
  run : VMState → Option VMState
  exec_instr : VMState → Instruction → Option VMState
  force : VMState → Ty → Option (Ty × VMState)
  force_struct_field : VMState → Nat → Ty → Option (Ty × VMState)
  eval_value : VMState → AST → Option (Ty × VMState)
  eval_value_list : VMState → List AST → Option (List Ty × VMState)
  call_function : VMState → Ty → List Ty → Option (Ty × VMState)
  as_int : VMState → Ty → Option (Int × VMState)
  as_usize_nonneg : VMState → Ty → Option (Nat × VMState)
  pop_int : VMState → Option (Int × VMState)
  add_values : VMState → Ty → Ty → Option (Ty × VMState)
  sub_values : VMState → Ty → Ty → Option (Ty × VMState)
  mod_values : VMState → Ty → Ty → Option (Ty × VMState)
  exec_cmp : (Int → Int → Int) → VMState → Option VMState
  print_value : VMState → Ty → Bool → Option VMState
  collect_chars : VMState → List Ty → Option (Option (List Nat) × VMState)
  exec_array_new : VMState → Option VMState
  exec_array_get : VMState → Option VMState
  exec_store_index : VMState → String → Option VMState
  exec_store_index_reactive : VMState → String → AST → Option VMState
  exec_array_lvalue : VMState → Option VMState
  exec_field_lvalue : VMState → String → Option VMState
  exec_field_get : VMState → String → Option VMState
  exec_field_set : VMState → String → Option VMState
  exec_field_set_reactive : VMState → String → AST → Option VMState
  exec_call : VMState → String → Nat → Option VMState
  instantiate_struct :
    VMState → List (String × Option (StructFieldInitKind × AST)) → Option (Ty × VMState)
  instantiate_inits :
    VMState → Nat → List (String × Option (StructFieldInitKind × AST)) → Option VMState
  eval_reactive_field_in_struct : VMState → Nat → AST → Option (Ty × VMState)

/-- The out-of-fuel level: every entry point fails. -/
def interpZero : Interp where
  run := fun _ => none
  exec_instr := fun _ _ => none
  force := fun _ _ => none
  force_struct_field := fun _ _ _ => none
  eval_value := fun _ _ => none
  eval_value_list := fun _ _ => none
  call_function := fun _ _ _ => none
  as_int := fun _ _ => none
  as_usize_nonneg := fun _ _ => none
  pop_int := fun _ => none
  add_values := fun _ _ _ => none
  sub_values := fun _ _ _ => none
  mod_values := fun _ _ _ => none
  exec_cmp := fun _ _ => none
  print_value := fun _ _ _ => none
  collect_chars := fun _ _ => none
  exec_array_new := fun _ => none
  exec_array_get := fun _ => none
  exec_store_index := fun _ _ => none
  exec_store_index_reactive := fun _ _ _ => none
  exec_array_lvalue := fun _ => none
  exec_field_lvalue := fun _ _ => none
  exec_field_get := fun _ _ => none
  exec_field_set := fun _ _ => none
  exec_field_set_reactive := fun _ _ _ => none
  exec_call := fun _ _ _ => none
  instantiate_struct := fun _ _ => none
  instantiate_inits := fun _ _ _ => none
  eval_reactive_field_in_struct := fun _ _ _ => none

set_option maxHeartbeats 4000000 in
/-- The fueled executor family; field by field this is a transcription of the
corresponding Rust function (see the doc comments on the top-level wrappers
below). -/
def interp : Nat → Interp
  | 0 => interpZero
  | fuel + 1 =>
    let I := interp fuel
    { -- `vm/exec.rs` `run`
      run := fun s =>
        match s.code[s.pointer]? with
        | none => some s
        | some instr =>
          match instr with
          | .Return => some s
          | .Jump label => do
            let tgt ← alistGet s.labels label
            I.run { s with pointer := tgt }
          | .JumpIfZero label => do
            let (n, s₁) ← I.pop_int s
            if n = 0 then do
              let tgt ← alistGet s₁.labels label
              I.run { s₁ with pointer := tgt }
            else I.run { s₁ with pointer := s₁.pointer + 1 }
          | _ => do
            let s₁ ← I.exec_instr s instr
            I.run { s₁ with pointer := s₁.pointer + 1 }
      -- `vm/exec.rs` `run`, dispatch of the non-control-flow instructions
      exec_instr := fun s instr =>
        match instr with
        | .Push n => some { s with stack := .Integer n :: s.stack }
        | .PushChar c => some { s with stack := .Char c :: s.stack }
        | .Load name => do
          let v ← lookup_var s name
          let (value, s₁) ← I.force s v
          some { s₁ with stack := value :: s₁.stack }
        | .Store name => exec_store s name
        | .StoreImmutable name => exec_store_immutable s name
        | .StoreReactive name ast => exec_store_reactive s name ast
        | .Add => do
          let (rhs, s₁) ← pop s
          let (lhs, s₂) ← pop s₁
          let (value, s₃) ← I.add_values s₂ lhs rhs
          some { s₃ with stack := value :: s₃.stack }
        | .Sub => do
          let (rhs, s₁) ← pop s
          let (lhs, s₂) ← pop s₁
          let (value, s₃) ← I.sub_values s₂ lhs rhs
          some { s₃ with stack := value :: s₃.stack }
        | .Modulo => do
          let (rhs, s₁) ← pop s
          let (lhs, s₂) ← pop s₁
          let (value, s₃) ← I.mod_values s₂ lhs rhs
          some { s₃ with stack := value :: s₃.stack }
        | .Mul => do
          let (a, s₁) ← I.pop_int s
          let (b, s₂) ← I.pop_int s₁
          some { s₂ with stack := .Integer (wrap32 (b * a)) :: s₂.stack }
        | .Div => do
          let (a, s₁) ← I.pop_int s
          let (b, s₂) ← I.pop_int s₁
          -- Rust i32 division panics on a zero divisor and on i32::MIN / -1
          if a = 0 ∨ (b = -(2 ^ 31) ∧ a = -1) then none
          else some { s₂ with stack := .Integer (wrap32 (b.tdiv a)) :: s₂.stack }
        | .Greater => I.exec_cmp (fun b a => if b > a then 1 else 0) s
        | .Less => I.exec_cmp (fun b a => if b < a then 1 else 0) s
        | .Equal => I.exec_cmp (fun b a => if b = a then 1 else 0) s
        | .NotEqual => I.exec_cmp (fun b a => if b ≠ a then 1 else 0) s
        | .GreaterEqual => I.exec_cmp (fun b a => if b ≥ a then 1 else 0) s
        | .LessEqual => I.exec_cmp (fun b a => if b ≤ a then 1 else 0) s
        | .And => I.exec_cmp (fun b a => if b > 0 ∧ a > 0 then 1 else 0) s
        | .Or => I.exec_cmp (fun b a => if b > 0 ∨ a > 0 then 1 else 0) s
        | .Print => do
          let (v, s₁) ← pop s
          I.print_value s₁ v false
        | .Println => do
          let (v, s₁) ← pop s
          I.print_value s₁ v true
        | .ArrayNew => I.exec_array_new s
        | .ArrayGet => I.exec_array_get s
        | .StoreIndex name => I.exec_store_index s name
        | .StoreIndexReactive name ast => I.exec_store_index_reactive s name ast
        | .StoreFunction name params body =>
          some { s with global_env := alistInsert s.global_env name (.Function params body) }
        | .Call name argc => I.exec_call s name argc
        | .StoreStruct name fields =>
          some { s with struct_defs := alistInsert s.struct_defs name fields }
        | .NewStruct name => do
          let d ← alistGet s.struct_defs name
          let (inst, s₁) ← I.instantiate_struct s d
          some { s₁ with stack := inst :: s₁.stack }
        | .FieldGet field => I.exec_field_get s field
        | .FieldSet field => I.exec_field_set s field
        | .FieldSetReactive field ast => I.exec_field_set_reactive s field ast
        | .PushImmutableContext =>
          some { s with immutable_stack := [] :: s.immutable_stack }
        | .PopImmutableContext =>
          if s.immutable_stack.length ≤ 1 then none
          else some { s with immutable_stack := s.immutable_stack.tail }
        | .ClearImmutableContext =>
          match s.immutable_stack with
          | [] => none
          | _ :: rest => some { s with immutable_stack := [] :: rest }
        | .Label _ => some s
        | .Jump _ => none
        | .JumpIfZero _ => none
        | .Return => none
        | .ArrayLValue => I.exec_array_lvalue s
        | .FieldLValue field => I.exec_field_lvalue s field
        | .StoreThrough => exec_store_through fuel s
        | .StoreThroughReactive ast => exec_store_through_reactive s ast
        | .StoreThroughImmutable => store_through_immutable fuel s
        | .Import path =>
          let module_name := String.intercalate "." path
          if s.imported_modules.contains module_name then some s
          else none
      -- `vm/reactive.rs` `force`
      force := fun s v =>
        match v with
        | .LazyValue ast captured => do
          let s₁ := { s with immutable_stack := captured :: s.immutable_stack }
          let (out, s₂) ← I.eval_value s₁ ast
          let s₃ := { s₂ with immutable_stack := s₂.immutable_stack.tail }
          I.force s₃ out
        | .LValue (.StructField struct_id field) => do
          let inst ← s.heap[struct_id]?
          let val ← alistGet inst.fields field
          I.force_struct_field s struct_id val
        | .LValue (.ArrayElem array_id index) => do
          let val ← read_lvalue s (.ArrayElem array_id index)
          I.force s val
        | other => some (other, s)
      -- `vm/reactive.rs` `force_struct_field`
      force_struct_field := fun s struct_id v =>
        match v with
        | .LazyValue ast captured => do
          let s₁ := { s with immutable_stack := captured :: s.immutable_stack }
          let (out, s₂) ← I.eval_reactive_field_in_struct s₁ struct_id ast
          let s₃ := { s₂ with immutable_stack := s₂.immutable_stack.tail }
          I.force s₃ out
        | other => I.force s other
      -- `vm/reactive.rs` `eval_value`
      eval_value := fun s ast =>
        match ast with
        | .Number n => some (.Integer n, s)
        | .Char c => some (.Char c, s)
        | .Var name =>
          match find_immutable s.immutable_stack name with
          | some v => some (v, s)
          | none =>
            match lookup_var s name with
            | some v => some (v, s)
            | none => none
        | .Ternary c t e => do
          let (value, s₁) ← I.eval_value s c
          let (ci, s₂) ← I.as_int s₁ value
          if ci ≠ 0 then I.eval_value s₂ t else I.eval_value s₂ e
        | .ArrayNew size_ast => do
          let (value, s₁) ← I.eval_value s size_ast
          let (n, s₂) ← I.as_usize_nonneg s₁ value
          let id := s₂.array_heap.length
          some (.ArrayRef id,
            { s₂ with
              array_heap := s₂.array_heap ++ [List.replicate n (.Integer 0)]
              array_immutables := s₂.array_immutables ++ [[]] })
        | .StringLiteral cs =>
          let id := s.array_heap.length
          -- the source pushes only to `array_heap` here (no `array_immutables` entry)
          some (.ArrayRef id, { s with array_heap := s.array_heap ++ [cs.map Ty.Char] })
        | .FieldAccess base field => do
          let (value, s₁) ← I.eval_value s base
          let (obj, s₂) ← I.force s₁ value
          match obj with
          | .StructRef id => do
            let inst ← s₂.heap[id]?
            let v ← alistGet inst.fields field
            I.force_struct_field s₂ id v
          | _ => none
        | .Index base index => do
          let (idx_val, s₁) ← I.eval_value s index
          let (idx, s₂) ← I.as_usize_nonneg s₁ idx_val
          let (base_val, s₃) ← I.eval_value s₂ base
          let (arr, s₄) ← I.force s₃ base_val
          match arr with
          | .ArrayRef id => do
            let a ← s₄.array_heap[id]?
            if idx < a.length then do
              let elem ← a[idx]?
              I.force s₄ elem
            else none
          | _ => none
        | .Call name args => do
          let (vals, s₁) ← I.eval_value_list s args
          let f ← alistGet s₁.global_env name
          I.call_function s₁ f vals
        | .Operation l op r => do
          let (lv, s₁) ← I.eval_value s l
          let (rv, s₂) ← I.eval_value s₁ r
          let (fl, s₃) ← I.force s₂ lv
          let (fr, s₄) ← I.force s₃ rv
          match op, fl, fr with
          | .Addition, .Char c, .Integer n =>
            some (.Char (asU32 (wrap32 (toI32 c + n))), s₄)
          | .Addition, .Integer n, .Char c =>
            some (.Char (asU32 (wrap32 (toI32 c + n))), s₄)
          | .Subtraction, .Char c, .Integer n =>
            some (.Char (asU32 (wrap32 (toI32 c - n))), s₄)
          | .Subtraction, .Integer n, .Char c =>
            some (.Char (asU32 (wrap32 (toI32 c - n))), s₄)
          | .Modulo, .Char c, .Integer n =>
            if n = 0 ∨ (toI32 c = -(2 ^ 31) ∧ n = -1) then none
            else some (.Char (asU32 ((toI32 c).tmod n)), s₄)
          | .Modulo, .Integer n, .Char c =>
            if n = 0 ∨ (toI32 c = -(2 ^ 31) ∧ n = -1) then none
            else some (.Char (asU32 ((toI32 c).tmod n)), s₄)
          | op', a, b => do
            let (ai, s₅) ← I.as_int s₄ a
            let (bi, s₆) ← I.as_int s₅ b
            match op' with
            | .Addition => some (.Integer (wrap32 (ai + bi)), s₆)
            | .Subtraction => some (.Integer (wrap32 (ai - bi)), s₆)
            | .Multiplication => some (.Integer (wrap32 (ai * bi)), s₆)
            | .Division =>
              if bi = 0 ∨ (ai = -(2 ^ 31) ∧ bi = -1) then none
              else some (.Integer (wrap32 (ai.tdiv bi)), s₆)
            | .Modulo =>
              if bi = 0 ∨ (ai = -(2 ^ 31) ∧ bi = -1) then none
              else some (.Integer (wrap32 (ai.tmod bi)), s₆)
            | .Greater => some (.Integer (if ai > bi then 1 else 0), s₆)
            | .Less => some (.Integer (if ai < bi then 1 else 0), s₆)
            | .Equal => some (.Integer (if ai = bi then 1 else 0), s₆)
            | .NotEqual => some (.Integer (if ai ≠ bi then 1 else 0), s₆)
            | .GreaterEqual => some (.Integer (if ai ≥ bi then 1 else 0), s₆)
            | .LessEqual => some (.Integer (if ai ≤ bi then 1 else 0), s₆)
            | .And => some (.Integer (if ai > 0 ∧ bi > 0 then 1 else 0), s₆)
            | .Or => some (.Integer (if ai > 0 ∨ bi > 0 then 1 else 0), s₆)
        | _ => none
      -- `vm/reactive.rs` `eval_value`, `Call` arm: arguments in order
      eval_value_list := fun s asts =>
        match asts with
        | [] => some ([], s)
        | a :: rest => do
          let (v, s₁) ← I.eval_value s a
          let (vs, s₂) ← I.eval_value_list s₁ rest
          some (v :: vs, s₂)
      -- `vm/call.rs` `call_function`
      call_function := fun s f args =>
        match f with
        | .Function params body => do
          let base ← s.immutable_stack.getLast?
          let scope := param_scope params args
          let body_code ← compile_function_body body
          let labels := build_labels body_code
          let frame : CallFrame :=
            { code := s.code
              labels := s.labels
              pointer := s.pointer
              local_env := s.local_env
              immutable_stack := s.immutable_stack
              stack_base := s.stack.length }
          let s₁ :=
            { s with
              code := body_code
              labels := labels
              pointer := 0
              local_env := some []
              immutable_stack := [scope, base]
              call_stack := frame :: s.call_stack }
          let s₂ ← I.run s₁
          pop_frame s₂
        | _ => none
      -- `vm/runtime.rs` `as_int`
      as_int := fun s v => do
        let (f, s₁) ← I.force s v
        match f with
        | .Integer n => some (n, s₁)
        | .Char c => some (toI32 c, s₁)
        | .ArrayRef id => do
          let arr ← s₁.array_heap[id]?
          some (toI32 arr.length, s₁)
        | _ => none
      -- `vm/runtime.rs` `as_usize_nonneg`
      as_usize_nonneg := fun s v => do
        let (i, s₁) ← I.as_int s v
        if i < 0 then none else some (i.toNat, s₁)
      -- `vm/runtime.rs` `pop_int`
      pop_int := fun s => do
        let (v, s₁) ← pop s
        I.as_int s₁ v
      -- `vm/exec.rs` `add_values`
      add_values := fun s lhs rhs => do
        let (fl, s₁) ← I.force s lhs
        let (fr, s₂) ← I.force s₁ rhs
        match fl, fr with
        | .Char c, .Integer n => some (.Char (asU32 (wrap32 (toI32 c + n))), s₂)
        | .Integer n, .Char c => some (.Char (asU32 (wrap32 (toI32 c + n))), s₂)
        | .Char a, .Char b => some (.Char ((a + b) % 2 ^ 32), s₂)
        | a, b => do
          let (ai, s₃) ← I.as_int s₂ a
          let (bi, s₄) ← I.as_int s₃ b
          some (.Integer (wrap32 (ai + bi)), s₄)
      -- `vm/exec.rs` `sub_values` (both mixed orders compute char − int)
      sub_values := fun s lhs rhs => do
        let (fl, s₁) ← I.force s lhs
        let (fr, s₂) ← I.force s₁ rhs
        match fl, fr with
        | .Char c, .Integer n => some (.Char (asU32 (wrap32 (toI32 c - n))), s₂)
        | .Integer n, .Char c => some (.Char (asU32 (wrap32 (toI32 c - n))), s₂)
        | .Char a, .Char b => some (.Char (asU32 ((a : Int) - (b : Int))), s₂)
        | a, b => do
          let (ai, s₃) ← I.as_int s₂ a
          let (bi, s₄) ← I.as_int s₃ b
          some (.Integer (wrap32 (ai - bi)), s₄)
      -- `vm/exec.rs` `mod_values` (Rust i32 % panics on a zero divisor and
      -- on the remainder overflow i32::MIN % -1; u32 % only on zero)
      mod_values := fun s lhs rhs => do
        let (fl, s₁) ← I.force s lhs
        let (fr, s₂) ← I.force s₁ rhs
        match fl, fr with
        | .Char c, .Integer n =>
          if n = 0 ∨ (toI32 c = -(2 ^ 31) ∧ n = -1) then none
          else some (.Char (asU32 ((toI32 c).tmod n)), s₂)
        | .Integer n, .Char c =>
          if n = 0 ∨ (toI32 c = -(2 ^ 31) ∧ n = -1) then none
          else some (.Char (asU32 ((toI32 c).tmod n)), s₂)
        | .Char a, .Char b =>
          if b = 0 then none else some (.Char (a % b), s₂)
        | a, b => do
          let (ai, s₃) ← I.as_int s₂ a
          let (bi, s₄) ← I.as_int s₃ b
          if bi = 0 ∨ (ai = -(2 ^ 31) ∧ bi = -1) then none
          else some (.Integer (wrap32 (ai.tmod bi)), s₄)
      -- `vm/exec.rs` `exec_cmp`
      exec_cmp := fun f s => do
        let (a, s₁) ← I.pop_int s
        let (b, s₂) ← I.pop_int s₁
        some { s₂ with stack := .Integer (f b a) :: s₂.stack }
      -- `vm/runtime.rs` `print_value`
      print_value := fun s v newline => do
        let (f, s₁) ← I.force s v
        let s₂ ←
          match f with
          | .Char c =>
            if valid_scalar c then some { s₁ with output := s₁.output ++ [.ch c] }
            else none
          | .Integer n => some { s₁ with output := s₁.output ++ [.int n] }
          | .ArrayRef id => do
            let elems ← s₁.array_heap[id]?
            let (res, s') ← I.collect_chars s₁ elems
            match res with
            | some codes =>
              if codes.all valid_scalar then
                some { s' with output := s'.output ++ codes.map Out.ch }
              else none
            | none => do
              let arr ← s'.array_heap[id]?
              some { s' with output := s'.output ++ [.int (arr.length : Int)] }
          | _ => none
        if newline then some { s₂ with output := s₂.output ++ [.newline] } else some s₂
      -- `vm/runtime.rs` `print_value`, array arm
      collect_chars := fun s elems =>
        match elems with
        | [] => some (some [], s)
        | e :: rest => do
          let (f, s₁) ← I.force s e
          match f with
          | .Char c => do
            let (res, s₂) ← I.collect_chars s₁ rest
            match res with
            | some codes => some (some (c :: codes), s₂)
            | none => some (none, s₂)
          | _ => some (none, s₁)
      -- `vm/runtime.rs` `exec_array_new`
      exec_array_new := fun s => do
        let (size_val, s₁) ← pop s
        let (n, s₂) ← I.as_usize_nonneg s₁ size_val
        let id := s₂.array_heap.length
        some { s₂ with
          stack := .ArrayRef id :: s₂.stack
          array_heap := s₂.array_heap ++ [List.replicate n (.Integer 0)]
          array_immutables := s₂.array_immutables ++ [[]] }
      -- `vm/runtime.rs` `exec_array_get`
      exec_array_get := fun s => do
        let (idx_val, s₁) ← pop s
        let (idx, s₂) ← I.as_usize_nonneg s₁ idx_val
        let (arr_val, s₃) ← pop s₂
        let (arr, s₄) ← I.force s₃ arr_val
        match arr with
        | .ArrayRef id => do
          let a ← s₄.array_heap[id]?
          if idx < a.length then do
            let elem ← a[idx]?
            let (f, s₅) ← I.force s₄ elem
            some { s₅ with stack := f :: s₅.stack }
          else none
        | _ => none
      -- `vm/runtime.rs` `exec_store_index`
      exec_store_index := fun s name => do
        let _ ← ensure_mutable_binding s name
        let (val, s₁) ← pop s
        let (idx_val, s₂) ← pop s₁
        let (idx, s₃) ← I.as_usize_nonneg s₂ idx_val
        let target ← lookup_var s₃ name
        let (arr, s₄) ← I.force s₃ target
        match arr with
        | .ArrayRef id => do
          let a ← s₄.array_heap[id]?
          if idx < a.length then
            some { s₄ with array_heap := s₄.array_heap.set id (a.set idx val) }
          else none
        | _ => none
      -- `vm/runtime.rs` `exec_store_index_reactive`
      exec_store_index_reactive := fun s name ast => do
        let _ ← ensure_mutable_binding s name
        let (idx_val, s₁) ← pop s
        let (idx, s₂) ← I.as_usize_nonneg s₁ idx_val
        let frozen := freeze_ast s₂.immutable_stack ast
        let captured := capture_immutables_for_ast s₂.immutable_stack frozen
        let target ← lookup_var s₂ name
        let (arr, s₃) ← I.force s₂ target
        match arr with
        | .ArrayRef id => do
          let a ← s₃.array_heap[id]?
          if idx < a.length then
            some { s₃ with array_heap :=
              s₃.array_heap.set id (a.set idx (.LazyValue frozen captured)) }
          else none
        | _ => none
      -- `vm/runtime.rs` `exec_array_lvalue`
      exec_array_lvalue := fun s => do
        let (idx_val, s₁) ← pop s
        let (idx, s₂) ← I.as_usize_nonneg s₁ idx_val
        let (base, s₃) ← pop s₂
        let (base_val, s₄) ← I.force s₃ base
        match base_val with
        | .ArrayRef id =>
          some { s₄ with stack := .LValue (.ArrayElem id idx) :: s₄.stack }
        | .LValue (.ArrayElem array_id index) => do
          let a ← s₄.array_heap[array_id]?
          let nested_val ← a[index]?
          let (nested, s₅) ← I.force s₄ nested_val
          match nested with
          | .ArrayRef nested_id =>
            some { s₅ with stack := .LValue (.ArrayElem nested_id idx) :: s₅.stack }
          | _ => none
        | .LValue (.StructField struct_id field) => do
          let inst ← s₄.heap[struct_id]?
          let field_val ← alistGet inst.fields field
          let (arr_val, s₅) ← I.force s₄ field_val
          match arr_val with
          | .ArrayRef array_id =>
            some { s₅ with stack := .LValue (.ArrayElem array_id idx) :: s₅.stack }
          | _ => none
        | _ => none
      -- `vm/runtime.rs` `exec_field_lvalue`
      exec_field_lvalue := fun s field => do
        let (base, s₁) ← pop s
        let (b, s₂) ← I.force s₁ base
        match b with
        | .StructRef id =>
          some { s₂ with stack := .LValue (.StructField id field) :: s₂.stack }
        | .LValue (.ArrayElem array_id index) => do
          let a ← s₂.array_heap[array_id]?
          let elem ← a[index]?
          let (e, s₃) ← I.force s₂ elem
          match e with
          | .StructRef id =>
            some { s₃ with stack := .LValue (.StructField id field) :: s₃.stack }
          | _ => none
        | _ => none
      -- `vm/runtime.rs` `exec_field_get`
      exec_field_get := fun s field => do
        let (obj, s₁) ← pop s
        let (o, s₂) ← I.force s₁ obj
        match o with
        | .StructRef id => do
          let inst ← s₂.heap[id]?
          let v ← alistGet inst.fields field
          match v with
          | .Uninitialized => none
          | _ => do
            let (out, s₃) ← I.force_struct_field s₂ id v
            some { s₃ with stack := out :: s₃.stack }
        | _ => none
      -- `vm/runtime.rs` `exec_field_set`
      exec_field_set := fun s field => do
        let (val, s₁) ← pop s
        let (obj, s₂) ← pop s₁
        let (o, s₃) ← I.force s₂ obj
        match o with
        | .StructRef struct_id => do
          let inst ← s₃.heap[struct_id]?
          if (alistGet inst.fields field).isNone then none
          else if inst.immutables.contains field then none
          else do
            let stored ← force_to_storable fuel s₃ val
            let inst' := { inst with fields := alistInsert inst.fields field stored }
            some { s₃ with heap := s₃.heap.set struct_id inst' }
        | _ => none
      -- `vm/runtime.rs` `exec_field_set_reactive`
      exec_field_set_reactive := fun s field ast => do
        let (obj, s₁) ← pop s
        let (o, s₂) ← I.force s₁ obj
        match o with
        | .StructRef id => do
          let inst ← s₂.heap[id]?
          if inst.immutables.contains field then none
          else
            let frozen := freeze_ast s₂.immutable_stack ast
            let captured := capture_immutables_for_ast s₂.immutable_stack frozen
            let inst' :=
              { inst with
                fields := alistInsert inst.fields field (.LazyValue frozen captured) }
            some { s₂ with heap := s₂.heap.set id inst' }
        | _ => none
      -- `vm/call.rs` `exec_call`
      exec_call := fun s name argc => do
        let (args, s₁) ← pop_args argc s
        let f ← alistGet s₁.global_env name
        match f with
        | .Function params body => do
          let (ret, s₂) ← I.call_function s₁ (.Function params body) args
          some { s₂ with stack := ret :: s₂.stack }
        | _ => none
      -- `vm/runtime.rs` `instantiate_struct`
      instantiate_struct := fun s fields => do
        let init := fields.foldl
          (fun (mi : Env × List String) nf =>
            match nf.2 with
            | some (.Immutable, _) =>
              (alistInsert mi.1 nf.1 .Uninitialized, setInsert mi.2 nf.1)
            | some (.Reactive, _) =>
              (alistInsert mi.1 nf.1 (.LazyValue (.Number 0) []), mi.2)
            | some (.Mutable, _) => (alistInsert mi.1 nf.1 .Uninitialized, mi.2)
            | none => (alistInsert mi.1 nf.1 .Uninitialized, mi.2))
          ([], [])
        let id := s.heap.length
        let inst : StructInstance := { fields := init.1, immutables := init.2 }
        let s₁ := { s with heap := s.heap ++ [inst] }
        let s₂ ← I.instantiate_inits s₁ id fields
        some (.StructRef id, s₂)
      -- `vm/runtime.rs` `instantiate_struct`, initializer loop
      instantiate_inits := fun s id fields =>
        match fields with
        | [] => some s
        | (name, init) :: rest =>
          match init with
          | none => I.instantiate_inits s id rest
          | some (kind, ast) => do
            let (value, s₁) ←
              match kind with
              | .Mutable => I.eval_reactive_field_in_struct s id ast
              | .Immutable => I.eval_reactive_field_in_struct s id ast
              | .Reactive => some ((.LazyValue ast [] : Ty), s)
            let stored ← force_to_storable fuel s₁ value
            let (cloned, s₂) ← clone_value s₁ stored
            let inst ← s₂.heap[id]?
            let inst' := { inst with fields := alistInsert inst.fields name cloned }
            let s₃ := { s₂ with heap := s₂.heap.set id inst' }
            I.instantiate_inits s₃ id rest
      -- `vm/runtime.rs` `eval_reactive_field_in_struct`
      eval_reactive_field_in_struct := fun s struct_id ast => do
        let inst ← s.heap[struct_id]?
        let frame := inst.fields.foldl
          (fun sc kv => alistInsert sc kv.1 (.LValue (.StructField struct_id kv.1))) []
        let s₁ := { s with immutable_stack := frame :: s.immutable_stack }
        let (result, s₂) ← I.eval_value s₁ ast
        some (result, { s₂ with immutable_stack := s₂.immutable_stack.tail }) }

/-- `vm/exec.rs` `run`: the fetch-decode-execute loop.  `Return` exits the
current invocation; `Jump`/`JumpIfZero` replace the pointer and re-enter
without the increment; every other instruction is dispatched and the pointer
advances by one. -/
def run (fuel : Nat) : VMState → Option VMState := (interp fuel).run

/-- `vm/exec.rs` `run`, single-instruction dispatch (the control-flow arms
`Jump`/`JumpIfZero`/`Return` are handled in `run` itself). -/
def exec_instr (fuel : Nat) : VMState → Instruction → Option VMState :=
  (interp fuel).exec_instr

/-- `vm/reactive.rs` `force`: evaluate a `LazyValue` under its captured frame
and force the result; read through an `LValue` (a struct-field read re-enters
struct-field forcing); return anything else as-is. -/
def force (fuel : Nat) : VMState → Ty → Option (Ty × VMState) := (interp fuel).force

/-- `vm/reactive.rs` `force_struct_field`: like `force`, but a `LazyValue`
drawn from a struct field is evaluated with the struct-local frame binding
every field of the record as an `LValue`. -/
def force_struct_field (fuel : Nat) : VMState → Nat → Ty → Option (Ty × VMState) :=
  (interp fuel).force_struct_field

/-- `vm/reactive.rs` `eval_value`: the AST interpreter used for reactive
thunks. -/
def eval_value (fuel : Nat) : VMState → AST → Option (Ty × VMState) :=
  (interp fuel).eval_value

/-- `vm/call.rs` `call_function`: build the callee's immutable stack (the
program's root frame plus a frame binding parameters zipped with arguments),
a fresh local map, compile the body, push a call frame, run, pop. -/
def call_function (fuel : Nat) : VMState → Ty → List Ty → Option (Ty × VMState) :=
  (interp fuel).call_function

/-- `vm/runtime.rs` `as_int`: force, then coerce — integers as-is, chars via
`as i32`, array refs to their length; everything else is a type error. -/
def as_int (fuel : Nat) : VMState → Ty → Option (Int × VMState) := (interp fuel).as_int

/-- `vm/runtime.rs` `pop_int`. -/
def pop_int (fuel : Nat) : VMState → Option (Int × VMState) := (interp fuel).pop_int

/-- `vm/exec.rs` `add_values`: char/int mixing yields a char (`i32` wrap then
`as u32`), two chars add as `u32`, everything else coerces to int. -/
def add_values (fuel : Nat) : VMState → Ty → Ty → Option (Ty × VMState) :=
  (interp fuel).add_values

/-- `vm/exec.rs` `sub_values` (note both mixed orders compute `char − int`). -/
def sub_values (fuel : Nat) : VMState → Ty → Ty → Option (Ty × VMState) :=
  (interp fuel).sub_values

/-- `vm/exec.rs` `mod_values` (a zero divisor is an arithmetic fault, and so
is the `i32` remainder overflow `i32::MIN % -1`, which Rust checks at every
optimization level). -/
def mod_values (fuel : Nat) : VMState → Ty → Ty → Option (Ty × VMState) :=
  (interp fuel).mod_values

/-- `vm/call.rs` `exec_call`: pop the arguments, look the name up in the
global map, reject a missing or non-function binding, call, push the return
value. -/
def exec_call (fuel : Nat) : VMState → String → Nat → Option VMState :=
  (interp fuel).exec_call

/-- `vm/runtime.rs` `exec_field_set`: pop value then object; the field must
exist and must not be immutable; the value is forced to a storable. -/
def exec_field_set (fuel : Nat) : VMState → String → Option VMState :=
  (interp fuel).exec_field_set

/-- `vm/runtime.rs` `exec_field_set_reactive`: reject an immutable field,
then store the frozen thunk — the immutable set is *not* extended. -/
def exec_field_set_reactive (fuel : Nat) : VMState → String → AST → Option VMState :=
  (interp fuel).exec_field_set_reactive

/-- `vm/runtime.rs` `instantiate_struct`. -/
def instantiate_struct (fuel : Nat) :
    VMState → List (String × Option (StructFieldInitKind × AST)) →
    Option (Ty × VMState) :=
  (interp fuel).instantiate_struct

/-- `vm/runtime.rs` `eval_reactive_field_in_struct`. -/
def eval_reactive_field_in_struct (fuel : Nat) :
    VMState → Nat → AST → Option (Ty × VMState) :=
  (interp fuel).eval_reactive_field_in_struct

/-! ## Test programs for the concrete scenarios -/

/-- `x = a; y ::= x * 3; read y; x = b; read y` (claim C1's scenario with the
two assigned values generalized). -/
def C1_prog (a b : Int) : List Instruction :=
  [.Push a, .Store "x",
   .StoreReactive "y" (.Operation (.Var "x") .Multiplication (.Number 3)),
   .Load "y",
   .Push b, .Store "x",
   .Load "y"]

/-- `x := 1; x = 2` — executed below both at top level and inside a function
body (claim C2). -/
def C2_prog : List Instruction :=
  [.Push 1, .StoreImmutable "x", .Push 2, .Store "x"]

/-- `struct R { a = 2; b ::= a + 1 }` (claim C3's record). -/
def R_fields : List (String × Option (StructFieldInitKind × AST)) :=
  [("a", some (.Mutable, .Number 2)),
   ("b", some (.Reactive, .Operation (.Var "a") .Addition (.Number 1)))]

/-- `r = struct R; read r.b; r.a = 9; read r.b` (claim C3's scenario). -/
def C3_prog : List Instruction :=
  [.StoreStruct "R" R_fields, .NewStruct "R", .Store "r",
   .Load "r", .FieldGet "b",
   .Load "r", .Push 9, .FieldSet "a",
   .Load "r", .FieldGet "b"]

/-- `struct S { a; b := a }`: the immutable initializer of `b` reads the bare
(uninitialized) sibling `a`, so after instantiation `b` is marked immutable
yet still holds `Uninitialized` (claim C4). -/
def S_fields : List (String × Option (StructFieldInitKind × AST)) :=
  [("a", none), ("b", some (.Immutable, .Var "a"))]

/-- `s = struct S` (claim C4, instantiation only). -/
def C4_setup : List Instruction :=
  [.StoreStruct "S" S_fields, .NewStruct "S", .Store "s"]

/-- `s = struct S; s.b := 5; read s.b` (claim C4: a store-through-immutable
write aimed at the already-immutable field `b`). -/
def C4_prog : List Instruction :=
  C4_setup ++ [.Load "s", .FieldLValue "b", .Push 5, .StoreThroughImmutable,
    .Load "s", .FieldGet "b"]

/-- Write `99` through the *clone* (`c`) into the nested array, then read the
same nested slot through the *original* (`o`) (claim C6). -/
def C6_code : List Instruction :=
  [.Load "c", .Push 0, .ArrayLValue, .Push 0, .ArrayLValue, .Push 99, .StoreThrough,
   .Load "o", .Push 0, .ArrayGet, .Push 0, .ArrayGet]

/-- A machine whose array arena holds an inner array (id 0) and an outer
array (id 1) whose single element is `ArrayRef 0`; `o` names the outer array
and `c` names the clone about to be created (id 2) (claim C6). -/
def C6_state : VMState :=
  { VM_new C6_code with
    array_heap := [[.Integer 1], [.ArrayRef 0]]
    array_immutables := [[], []]
    global_env := [("o", .ArrayRef 1), ("c", .ArrayRef 2)] }

/-! ## Helper lemmas -/

/-- A value is in forced form when it is neither a `LazyValue` nor an
`LValue` — exactly the values `force` returns unchanged. -/
def forced : Ty → Bool
  | .LazyValue _ _ => false
  | .LValue _ => false
  | _ => true

theorem force_result_forced (fuel : Nat) :
    (∀ s v r, force fuel s v = some r → forced r.1 = true) ∧
    (∀ s id v r, force_struct_field fuel s id v = some r → forced r.1 = true) := by
  induction fuel with
  | zero =>
    constructor
    · intro s v r h
      simp [force, interp, interpZero] at h
    · intro s id v r h
      simp [force_struct_field, interp, interpZero] at h
  | succ n ih =>
    obtain ⟨ihf, ihsf⟩ := ih
    constructor
    · intro s v r h
      cases v with
      | LazyValue ast cap =>
        simp only [force, interp] at h
        cases heval : (interp n).eval_value
            { s with immutable_stack := cap :: s.immutable_stack } ast with
        | none => rw [heval] at h; simp at h
        | some p =>
          obtain ⟨out, s₂⟩ := p
          rw [heval, Option.bind_eq_bind', Option.some_bind'] at h
          exact ihf _ _ _ h
      | LValue lv =>
        cases lv with
        | StructField sid f =>
          simp only [force, interp] at h
          cases hh : s.heap[sid]? with
          | none => rw [hh] at h; simp at h
          | some inst =>
            rw [hh, Option.bind_eq_bind', Option.some_bind'] at h
            cases hg : alistGet inst.fields f with
            | none => rw [hg] at h; simp at h
            | some val =>
              rw [hg, Option.bind_eq_bind', Option.some_bind'] at h
              exact ihsf _ _ _ _ h
        | ArrayElem aid idx =>
          simp only [force, interp] at h
          cases hr : read_lvalue s (.ArrayElem aid idx) with
          | none => rw [hr] at h; simp at h
          | some val =>
            rw [hr, Option.bind_eq_bind', Option.some_bind'] at h
            exact ihf _ _ _ h
      | Integer m => cases h; rfl
      | Char c => cases h; rfl
      | ArrayRef i => cases h; rfl
      | StructRef i => cases h; rfl
      | Function p b => cases h; rfl
      | Uninitialized => cases h; rfl
    · intro s id v r h
      cases v with
      | LazyValue ast cap =>
        simp only [force_struct_field, interp] at h
        cases heval : (interp n).eval_reactive_field_in_struct
            { s with immutable_stack := cap :: s.immutable_stack } id ast with
        | none => rw [heval] at h; simp at h
        | some p =>
          obtain ⟨out, s₂⟩ := p
          rw [heval, Option.bind_eq_bind', Option.some_bind'] at h
          exact ihf _ _ _ h
      | LValue lv => exact ihf _ _ _ h
      | Integer m => exact ihf _ _ _ h
      | Char c => exact ihf _ _ _ h
      | ArrayRef i => exact ihf _ _ _ h
      | StructRef i => exact ihf _ _ _ h
      | Function p b => exact ihf _ _ _ h
      | Uninitialized => exact ihf _ _ _ h

theorem alistGet_insert_self {α : Type} (m : List (String × α)) (k : String) (v : α) :
    alistGet (alistInsert m k v) k = some v := by
  simp [alistInsert, alistGet]

theorem alistGet_filter_ne {α : Type} (m : List (String × α)) (k k' : String)
    (h : k ≠ k') :
    alistGet (m.filter (fun p => !(p.1 == k))) k' = alistGet m k' := by
  induction m with
  | nil => rfl
  | cons q rest ih =>
    by_cases hq : q.1 = k
    · have : (q.1 == k) = true := by simp [hq]
      simp only [List.filter_cons, this, Bool.not_true]
      have hne : (q.1 == k') = false := by simp [hq, h]
      simp [alistGet, hne, ih]
    · have : (q.1 == k) = false := by simp [hq]
      simp only [List.filter_cons, this, Bool.not_false]
      by_cases hk' : q.1 = k'
      · simp [alistGet, hk']
      · have h2 : (q.1 == k') = false := by simp [hk']
        simp [alistGet, h2, ih]

theorem alistGet_insert_ne {α : Type} (m : List (String × α)) (k k' : String) (v : α)
    (h : k ≠ k') :
    alistGet (alistInsert m k v) k' = alistGet m k' := by
  have hb : (k == k') = false := by simp [h]
  simp [alistInsert, alistGet, hb, alistGet_filter_ne m k k' h]

theorem setInsert_contains_self (s : List String) (x : String) :
    (setInsert s x).contains x = true := by
  simp only [setInsert]
  by_cases h : s.contains x = true
  · rw [if_pos h]; exact h
  · rw [if_neg h]; simp

theorem pop_args_append (l rest : List Ty) (s : VMState) (h : s.stack = l ++ rest) :
    pop_args l.length s = some (l.reverse, { s with stack := rest }) := by
  induction l generalizing s with
  | nil =>
    simp only [List.length_nil, pop_args, List.reverse_nil]
    simp only [List.nil_append] at h
    cases s
    simp only at h
    simp [h]
  | cons x xs ih =>
    simp only [List.length_cons, pop_args, pop, h, List.cons_append,
      Option.bind_eq_bind', Option.some_bind']
    rw [ih { s with stack := xs ++ rest } rfl, Option.some_bind']
    simp

theorem pop_args_reverse_append (args rest : List Ty) (s : VMState)
    (h : s.stack = args.reverse ++ rest) :
    pop_args args.length s = some (args, { s with stack := rest }) := by
  have := pop_args_append args.reverse rest s h
  simpa using this

theorem zip_take_length {α β : Type} (l₁ : List α) (l₂ : List β) :
    l₁.zip (l₂.take l₁.length) = l₁.zip l₂ := by
  induction l₁ generalizing l₂ with
  | nil => simp
  | cons x xs ih =>
    cases l₂ with
    | nil => simp
    | cons y ys => simp [List.zip_cons_cons, ih]

theorem zip_fst_mem_take {α β : Type} {params : List α} {args : List β}
    {q : α × β} (hq : q ∈ params.zip args) : q.1 ∈ params.take args.length := by
  induction params generalizing args with
  | nil => simp [List.zip] at hq
  | cons p ps ih =>
    cases args with
    | nil => simp [List.zip] at hq
    | cons a as =>
      simp only [List.zip_cons_cons, List.mem_cons] at hq
      rcases hq with hq | hq
      · subst hq
        simp [List.take]
      · simp only [List.length_cons, List.take_succ_cons, List.mem_cons]
        exact Or.inr (ih hq)

theorem alistGet_foldl_insert_not_mem (pairs : List (String × Ty)) (p : String)
    (acc : Env) (hacc : alistGet acc p = none)
    (hp : ∀ q ∈ pairs, q.1 ≠ p) :
    alistGet (pairs.foldl (fun m pv => alistInsert m pv.1 pv.2) acc) p = none := by
  induction pairs generalizing acc with
  | nil => simpa using hacc
  | cons q rest ih =>
    simp only [List.foldl_cons]
    refine ih _ ?_ (fun q' hq' => hp q' (List.mem_cons_of_mem _ hq'))
    rw [alistGet_insert_ne _ _ _ _ (hp q (List.mem_cons_self _ _))]
    exact hacc

theorem param_scope_not_mem_take (params : List String) (args : List Ty)
    (p : String) (hp : p ∉ params.take args.length) :
    alistGet (param_scope params args) p = none := by
  refine alistGet_foldl_insert_not_mem _ _ _ rfl ?_
  intro q hq hq1
  exact hp (hq1 ▸ zip_fst_mem_take hq)

/-! ## Claim theorems -/

/-- Claim C1: a reactive binding whose dependency resolves *mutably* does not
capture it; the dependency is re-looked-up at force time, so after `x = a;
y ::= x * 3` a read of `y` yields `a * 3`, and after `x = b` a read of `y`
yields `b * 3` (the claim's instance is `a = 2, b = 10` giving `6` and `30`;
`wrap32` is the `i32` wrap of the multiplication). -/
theorem C1_reactive_reflects_mutable_dependency (a b : Int) :
    (run 32 (VM_new (C1_prog a b))).map VMState.stack =
      some [.Integer (wrap32 (b * 3)), .Integer (wrap32 (a * 3))] := rfl

/-- Claim C3: a reactive struct field names its sibling through the inner
immutable frame of field `LValue`s, so it rereads the sibling's current value
on every read: for `struct R { a = 2; b ::= a + 1 }`, reading `b` yields `3`,
and after `a = 9` reading `b` yields `10`. -/
theorem C3_reactive_struct_field_rereads_sibling :
    (run 32 (VM_new C3_prog)).map VMState.stack =
      some [.Integer 10, .Integer 3] := rfl

/-- Claim C2 counterexample: the claim asserts that after `x := e` in a
function body's scope, a subsequent `x = …` in that same body fails; in the
VM `ensure_mutable_binding` skips the immutability check whenever a local map
is present, so the store *succeeds* and writes the local map (the immutable
binding still shadows it on lookup). -/
theorem C2_counterexample :
    (run 8 { VM_new C2_prog with local_env := some [] }).map
      (fun s => (s.local_env, s.immutable_stack)) =
      some (some [("x", Ty.Integer 2)], [[("x", Ty.Integer 1)]]) := rfl

/-- Claim C5 counterexample: both operands `-1` are nonzero, so the claim
predicts `and` yields `Integer 1`; the VM's `and` tests `> 0`, not `≠ 0`, and
yields `Integer 0`. -/
theorem C5_counterexample :
    (run 8 (VM_new [.Push (-1), .Push (-1), .And])).map VMState.stack =
        some [.Integer 0] ∧
      ([Ty.Integer 0] : List Ty) ≠ [Ty.Integer 1] := by
  refine ⟨rfl, ?_⟩
  simp

/-- Claim C7 counterexample: the claim predicts `Char % Int` always produces
a `Char` — with divisor `0` the VM faults instead; and on the reactive
evaluation path (`eval_value`, one of the claim's two cited sites) two `Char`
operands fall through to the integer branch and produce an `Integer`, not a
`Char` (`'a' + 2-as-char` gives `Integer 99`). -/
theorem C7_counterexample :
    run 8 (VM_new [.PushChar 97, .Push 0, .Modulo]) = none ∧
      eval_value 8 (VM_new []) (.Operation (.Char 97) .Addition (.Char 2)) =
        some (.Integer 99, VM_new []) := ⟨rfl, rfl⟩

/-- Claim C4 counterexample: after `s = struct S` with
`struct S { a; b := a }`, the field `b` is marked immutable (and holds
`Uninitialized`, because its initializer read the bare sibling `a`); the
claim predicts every write to `b` fails, yet the path-mediated
`store-through-immutable` write `s.b := 5` succeeds and changes the stored
value to `Integer 5`. -/
theorem C4_counterexample :
    (run 32 (VM_new C4_setup)).map (fun s => s.heap.map StructInstance.immutables) =
        some [["b"]] ∧
      (run 32 (VM_new C4_prog)).map
          (fun s => (s.stack, s.heap.map (fun i => alistGet i.fields "b"))) =
        some ([.Integer 5], [some (.Integer 5)]) := ⟨rfl, rfl⟩

theorem char_int_wrap_add (c : Nat) (hc : c < 2 ^ 32) (n : Int) :
    asU32 (wrap32 (toI32 c + n)) = (((c : Int) + n) % 2 ^ 32).toNat := by
  have e32 : ((2 : Int) ^ 32) = 4294967296 := by norm_num
  have e31 : ((2 : Int) ^ 31) = 2147483648 := by norm_num
  have n32 : ((2 : Nat) ^ 32) = 4294967296 := by norm_num
  simp only [asU32, wrap32, toI32, e32, e31, n32]
  have hc' : c % 4294967296 = c := Nat.mod_eq_of_lt (by omega)
  rw [hc']
  split <;> omega

theorem char_int_wrap_sub (c : Nat) (hc : c < 2 ^ 32) (n : Int) :
    asU32 (wrap32 (toI32 c - n)) = (((c : Int) - n) % 2 ^ 32).toNat := by
  have e32 : ((2 : Int) ^ 32) = 4294967296 := by norm_num
  have e31 : ((2 : Int) ^ 31) = 2147483648 := by norm_num
  have n32 : ((2 : Nat) ^ 32) = 4294967296 := by norm_num
  simp only [asU32, wrap32, toI32, e32, e31, n32]
  have hc' : c % 4294967296 = c := Nat.mod_eq_of_lt (by omega)
  rw [hc']
  split <;> omega

/-- Claim C8: `force` is idempotent.  Whenever forcing `v` from some state
yields `(v', s')`, the result `v'` is in forced form (never a `LazyValue` or
an `LValue`), so forcing `v'` again — from `s'` or any state, with any
positive fuel — returns it unchanged and leaves the state untouched. -/
theorem C8_force_idempotent (fuel : Nat) (s s' : VMState) (v v' : Ty)
    (h : force fuel s v = some (v', s')) (g : Nat) :
    force (g + 1) s' v' = some (v', s') := by
  have hf := (force_result_forced fuel).1 s v (v', s') h
  cases v' with
  | LazyValue a c => simp [forced] at hf
  | LValue lv => simp [forced] at hf
  | Integer n => rfl
  | Char c => rfl
  | ArrayRef i => rfl
  | StructRef i => rfl
  | Function p b => rfl
  | Uninitialized => rfl

/-- Witness for C8: a concrete force whose second force is the identity. -/
theorem C8_witness :
    force 2 (VM_new []) (.Integer 5) = some (.Integer 5, VM_new []) :=
  C8_force_idempotent 1 (VM_new []) (VM_new []) (.Integer 5) (.Integer 5) rfl 1

/-- Claim C2 (amended): a binding `x := e` blocks every subsequent `x = …` in
that scope only at the global top level (no local map); inside a function
body the VM skips the check entirely — the store succeeds and writes the
function's local map (the immutable binding continues to shadow it on
lookup). -/
theorem C2_immutable_blocks_only_top_level_store (s t : VMState) (name : String)
    (l : Env) (v : Ty) (rest : List Ty)
    (h₁ : s.local_env = none) (h₂ : immutable_exists s name = true)
    (hl : t.local_env = some l) (hts : t.stack = v :: rest) :
    exec_store s name = none ∧
      exec_store t name =
        some { t with stack := rest, local_env := some (alistInsert l name v) } := by
  constructor
  · simp [exec_store, ensure_mutable_binding, h₁, h₂]
  · simp [exec_store, ensure_mutable_binding, hl, pop, hts]

/-- A machine at the top level with `x` immutably bound and `2` on the
stack (witness input for C2). -/
def C2_top_state : VMState :=
  { VM_new [] with stack := [Ty.Integer 2], immutable_stack := [[("x", Ty.Integer 1)]] }

/-- A machine inside a function call (empty local map) with `2` on the stack
(witness input for C2). -/
def C2_fn_state : VMState :=
  { VM_new [] with stack := [Ty.Integer 2], local_env := some [] }

/-- Witness for C2 (amended): concrete top-level rejection and in-function
acceptance. -/
theorem C2_witness :
    exec_store C2_top_state "x" = none ∧
      exec_store C2_fn_state "x" =
        some { C2_fn_state with stack := [], local_env := some [("x", Ty.Integer 2)] } :=
  C2_immutable_blocks_only_top_level_store C2_top_state C2_fn_state
    "x" [] (Ty.Integer 2) [] rfl rfl rfl rfl

/-- Claim C5 (amended): `and` and `or` consume both operands eagerly and
produce `Integer 0`/`Integer 1`, but an operand counts as true iff it is
*strictly positive* after coercion (`> 0`, not `≠ 0`): negative operands
count as false.  This holds on both cited sites — the `and`/`or`
instructions and the reactive evaluator's operator branch. -/
theorem C5_and_or_test_strict_positivity (fuel : Nat) (s : VMState) (a b : Int)
    (r : List Ty) :
    exec_instr (fuel + 5) { s with stack := .Integer a :: .Integer b :: r } .And =
        some { s with stack := .Integer (if b > 0 ∧ a > 0 then 1 else 0) :: r } ∧
      exec_instr (fuel + 5) { s with stack := .Integer a :: .Integer b :: r } .Or =
        some { s with stack := .Integer (if b > 0 ∨ a > 0 then 1 else 0) :: r } ∧
      eval_value (fuel + 3) s (.Operation (.Number b) .And (.Number a)) =
        some (.Integer (if b > 0 ∧ a > 0 then 1 else 0), s) ∧
      eval_value (fuel + 3) s (.Operation (.Number b) .Or (.Number a)) =
        some (.Integer (if b > 0 ∨ a > 0 then 1 else 0), s) :=
  ⟨rfl, rfl, rfl, rfl⟩

/-- Claim C7 (amended): for `+`, `-` and `%` on the instruction path, a
`Char` mixed with an `Int` (either order) produces a `Char` wrapping modulo
`2^32`, two chars produce a `Char` (subtraction wrapping modulo `2^32`), and
`Int` operands produce an `Int` — *except* that a zero modulo divisor, and
likewise the `i32` remainder overflow `i32::MIN % -1` (reachable as
`Char (2^31) % Integer (-1)` and as `Integer (-2^31) % Integer (-1)`, shown
faulting in the last two conjuncts), is an arithmetic fault rather than a
value, and on the reactive `eval_value` path two `Char` operands produce an
`Integer` (see the counterexample). -/
theorem C7_char_arithmetic_wraps (fuel : Nat) (s : VMState) (c d : Nat) (n m : Int)
    (hc : c < 2 ^ 32) (hn : n ≠ 0) (hd : d ≠ 0) (hm : m ≠ 0)
    (hno : toI32 c ≠ -(2 ^ 31) ∨ n ≠ -1) (hmo : n ≠ -(2 ^ 31) ∨ m ≠ -1) :
    (add_values (fuel + 3) s (.Char c) (.Integer n) =
        some (.Char ((((c : Int) + n) % 2 ^ 32).toNat), s)) ∧
      (add_values (fuel + 3) s (.Integer n) (.Char c) =
        some (.Char ((((c : Int) + n) % 2 ^ 32).toNat), s)) ∧
      (add_values (fuel + 3) s (.Char c) (.Char d) =
        some (.Char ((c + d) % 2 ^ 32), s)) ∧
      (sub_values (fuel + 3) s (.Char c) (.Integer n) =
        some (.Char ((((c : Int) - n) % 2 ^ 32).toNat), s)) ∧
      (sub_values (fuel + 3) s (.Integer n) (.Char c) =
        some (.Char ((((c : Int) - n) % 2 ^ 32).toNat), s)) ∧
      (sub_values (fuel + 3) s (.Char c) (.Char d) =
        some (.Char ((((c : Int) - (d : Int)) % 2 ^ 32).toNat), s)) ∧
      (mod_values (fuel + 3) s (.Char c) (.Integer n) =
        some (.Char ((((toI32 c).tmod n) % 2 ^ 32).toNat), s)) ∧
      (mod_values (fuel + 3) s (.Integer n) (.Char c) =
        some (.Char ((((toI32 c).tmod n) % 2 ^ 32).toNat), s)) ∧
      (mod_values (fuel + 3) s (.Char c) (.Char d) = some (.Char (c % d), s)) ∧
      (add_values (fuel + 3) s (.Integer n) (.Integer m) =
        some (.Integer (wrap32 (n + m)), s)) ∧
      (sub_values (fuel + 3) s (.Integer n) (.Integer m) =
        some (.Integer (wrap32 (n - m)), s)) ∧
      (mod_values (fuel + 3) s (.Integer n) (.Integer m) =
        some (.Integer (wrap32 (n.tmod m)), s)) ∧
      (mod_values (fuel + 3) s (.Char (2 ^ 31)) (.Integer (-1)) = none) ∧
      (mod_values (fuel + 3) s (.Integer (-(2 ^ 31))) (.Integer (-1)) = none) := by
  have hcn : ¬(n = 0 ∨ (toI32 c = -(2 ^ 31) ∧ n = -1)) := by
    rintro (h | ⟨h1, h2⟩)
    · exact hn h
    · rcases hno with h' | h'
      · exact h' h1
      · exact h' h2
  have hcm : ¬(m = 0 ∨ (n = -(2 ^ 31) ∧ m = -1)) := by
    rintro (h | ⟨h1, h2⟩)
    · exact hm h
    · rcases hmo with h' | h'
      · exact h' h1
      · exact h' h2
  refine ⟨?_, ?_, rfl, ?_, ?_, rfl, ?_, ?_, ?_, rfl, rfl, ?_, rfl, rfl⟩
  · have h0 : add_values (fuel + 3) s (.Char c) (.Integer n) =
        some (.Char (asU32 (wrap32 (toI32 c + n))), s) := rfl
    rw [h0, char_int_wrap_add c hc n]
  · have h0 : add_values (fuel + 3) s (.Integer n) (.Char c) =
        some (.Char (asU32 (wrap32 (toI32 c + n))), s) := rfl
    rw [h0, char_int_wrap_add c hc n]
  · have h0 : sub_values (fuel + 3) s (.Char c) (.Integer n) =
        some (.Char (asU32 (wrap32 (toI32 c - n))), s) := rfl
    rw [h0, char_int_wrap_sub c hc n]
  · have h0 : sub_values (fuel + 3) s (.Integer n) (.Char c) =
        some (.Char (asU32 (wrap32 (toI32 c - n))), s) := rfl
    rw [h0, char_int_wrap_sub c hc n]
  · have h0 : mod_values (fuel + 3) s (.Char c) (.Integer n) =
        if n = 0 ∨ (toI32 c = -(2 ^ 31) ∧ n = -1) then none
        else some (.Char (asU32 ((toI32 c).tmod n)), s) := rfl
    rw [h0, if_neg hcn]
    rfl
  · have h0 : mod_values (fuel + 3) s (.Integer n) (.Char c) =
        if n = 0 ∨ (toI32 c = -(2 ^ 31) ∧ n = -1) then none
        else some (.Char (asU32 ((toI32 c).tmod n)), s) := rfl
    rw [h0, if_neg hcn]
    rfl
  · have h0 : mod_values (fuel + 3) s (.Char c) (.Char d) =
        if d = 0 then none else some (.Char (c % d), s) := rfl
    rw [h0, if_neg hd]
  · have h0 : mod_values (fuel + 3) s (.Integer n) (.Integer m) =
        if m = 0 ∨ (n = -(2 ^ 31) ∧ m = -1) then none
        else some (.Integer (wrap32 (n.tmod m)), s) := rfl
    rw [h0, if_neg hcm]

/-- Witness for C7 (amended): the whole amended statement at
`c = 97, d = 10, n = 5, m = 3`. -/
theorem C7_witness :
    (add_values 3 (VM_new []) (.Char 97) (.Integer 5) =
        some (.Char ((((97 : Int) + 5) % 2 ^ 32).toNat), VM_new [])) ∧
      (add_values 3 (VM_new []) (.Integer 5) (.Char 97) =
        some (.Char ((((97 : Int) + 5) % 2 ^ 32).toNat), VM_new [])) ∧
      (add_values 3 (VM_new []) (.Char 97) (.Char 10) =
        some (.Char ((97 + 10) % 2 ^ 32), VM_new [])) ∧
      (sub_values 3 (VM_new []) (.Char 97) (.Integer 5) =
        some (.Char ((((97 : Int) - 5) % 2 ^ 32).toNat), VM_new [])) ∧
      (sub_values 3 (VM_new []) (.Integer 5) (.Char 97) =
        some (.Char ((((97 : Int) - 5) % 2 ^ 32).toNat), VM_new [])) ∧
      (sub_values 3 (VM_new []) (.Char 97) (.Char 10) =
        some (.Char ((((97 : Int) - (10 : Int)) % 2 ^ 32).toNat), VM_new [])) ∧
      (mod_values 3 (VM_new []) (.Char 97) (.Integer 5) =
        some (.Char ((((toI32 97).tmod 5) % 2 ^ 32).toNat), VM_new [])) ∧
      (mod_values 3 (VM_new []) (.Integer 5) (.Char 97) =
        some (.Char ((((toI32 97).tmod 5) % 2 ^ 32).toNat), VM_new [])) ∧
      (mod_values 3 (VM_new []) (.Char 97) (.Char 10) =
        some (.Char (97 % 10), VM_new [])) ∧
      (add_values 3 (VM_new []) (.Integer 5) (.Integer 3) =
        some (.Integer (wrap32 (5 + 3)), VM_new [])) ∧
      (sub_values 3 (VM_new []) (.Integer 5) (.Integer 3) =
        some (.Integer (wrap32 (5 - 3)), VM_new [])) ∧
      (mod_values 3 (VM_new []) (.Integer 5) (.Integer 3) =
        some (.Integer (wrap32 (Int.tmod 5 3)), VM_new [])) ∧
      (mod_values 3 (VM_new []) (.Char (2 ^ 31)) (.Integer (-1)) = none) ∧
      (mod_values 3 (VM_new []) (.Integer (-(2 ^ 31))) (.Integer (-1)) = none) :=
  C7_char_arithmetic_wraps 0 (VM_new []) 97 10 5 3 (by norm_num) (by norm_num)
    (by norm_num) (by norm_num) (Or.inr (by norm_num)) (Or.inr (by norm_num))

theorem force_succ_structref (n : Nat) (s : VMState) (id : Nat) :
    force (n + 1) s (.StructRef id) = some (.StructRef id, s) := rfl

theorem exec_field_set_succ (n : Nat) (s : VMState) (f : String) :
    exec_field_set (n + 1) s f = (do
      let (val, s₁) ← pop s
      let (obj, s₂) ← pop s₁
      let (o, s₃) ← force n s₂ obj
      match o with
      | .StructRef struct_id => do
        let inst ← s₃.heap[struct_id]?
        if (alistGet inst.fields f).isNone then none
        else if inst.immutables.contains f then none
        else do
          let stored ← force_to_storable n s₃ val
          let inst' := { inst with fields := alistInsert inst.fields f stored }
          some { s₃ with heap := s₃.heap.set struct_id inst' }
      | _ => none) := rfl

theorem exec_field_set_reactive_succ (n : Nat) (s : VMState) (f : String) (ast : AST) :
    exec_field_set_reactive (n + 1) s f ast = (do
      let (obj, s₁) ← pop s
      let (o, s₂) ← force n s₁ obj
      match o with
      | .StructRef id => do
        let inst ← s₂.heap[id]?
        if inst.immutables.contains f then none
        else
          let frozen := freeze_ast s₂.immutable_stack ast
          let captured := capture_immutables_for_ast s₂.immutable_stack frozen
          let inst' :=
            { inst with
              fields := alistInsert inst.fields f (.LazyValue frozen captured) }
          some { s₂ with heap := s₂.heap.set id inst' }
      | _ => none) := rfl

theorem store_through_immutable_field_none (fuel : Nat) (s : VMState) (id : Nat)
    (f : String) (inst : StructInstance) (v : Ty) (rest : List Ty)
    (hinst : s.heap[id]? = some inst)
    (himm : inst.immutables.contains f = true)
    (hstack : s.stack = v :: .LValue (.StructField id f) :: rest) :
    exec_store_through fuel s = none := by
  have himm' : f ∈ inst.immutables := by simpa using himm
  simp only [exec_store_through, pop, hstack, Option.bind_eq_bind', Option.some_bind']
  cases hfs : force_to_storable fuel { s with stack := rest } v with
  | none => rfl
  | some stored =>
    rw [Option.some_bind']
    cases halist : alistGet inst.fields f with
    | none => simp [hinst, halist]
    | some w => simp [hinst, halist, himm']

theorem reactive_through_immutable_field_none (s : VMState) (id : Nat)
    (f : String) (inst : StructInstance) (rest : List Ty) (ast : AST)
    (hinst : s.heap[id]? = some inst)
    (himm : inst.immutables.contains f = true)
    (hstack : s.stack = .LValue (.StructField id f) :: rest) :
    exec_store_through_reactive s ast = none := by
  have himm' : f ∈ inst.immutables := by simpa using himm
  simp only [exec_store_through_reactive, pop, hstack, Option.bind_eq_bind',
    Option.some_bind']
  cases halist : alistGet inst.fields f with
  | none => simp [hinst, halist]
  | some w => simp [hinst, halist, himm']

theorem field_set_immutable_none (fuel : Nat) (s : VMState) (id : Nat)
    (f : String) (inst : StructInstance) (v : Ty) (rest : List Ty)
    (hinst : s.heap[id]? = some inst)
    (himm : inst.immutables.contains f = true)
    (hstack : s.stack = v :: .StructRef id :: rest) :
    exec_field_set (fuel + 2) s f = none := by
  have himm' : f ∈ inst.immutables := by simpa using himm
  rw [show fuel + 2 = (fuel + 1) + 1 from rfl, exec_field_set_succ]
  simp only [pop, hstack, Option.bind_eq_bind', Option.some_bind']
  rw [force_succ_structref, Option.some_bind']
  cases halist : alistGet inst.fields f with
  | none => simp [hinst, halist]
  | some w => simp [hinst, halist, himm']

theorem field_set_reactive_immutable_none (fuel : Nat) (s : VMState) (id : Nat)
    (f : String) (inst : StructInstance) (rest : List Ty) (ast : AST)
    (hinst : s.heap[id]? = some inst)
    (himm : inst.immutables.contains f = true)
    (hstack : s.stack = .StructRef id :: rest) :
    exec_field_set_reactive (fuel + 2) s f ast = none := by
  have himm' : f ∈ inst.immutables := by simpa using himm
  rw [show fuel + 2 = (fuel + 1) + 1 from rfl, exec_field_set_reactive_succ]
  simp only [pop, hstack, Option.bind_eq_bind', Option.some_bind']
  rw [force_succ_structref, Option.some_bind']
  simp [hinst, himm']

theorem store_through_immutable_occupied_none (fuel : Nat) (s : VMState) (id : Nat)
    (f : String) (inst : StructInstance) (v : Ty) (rest : List Ty) (w : Ty)
    (hinst : s.heap[id]? = some inst)
    (hw : alistGet inst.fields f = some w)
    (hwu : w ≠ .Uninitialized)
    (hstack : s.stack = v :: .LValue (.StructField id f) :: rest) :
    store_through_immutable fuel s = none := by
  simp only [store_through_immutable, pop, hstack, Option.bind_eq_bind',
    Option.some_bind']
  cases hfs : force_to_storable fuel { s with stack := rest } v with
  | none => rfl
  | some stored =>
    rw [Option.some_bind']
    cases w with
    | Uninitialized => exact absurd rfl hwu
    | Integer n => simp [hinst, hw]
    | Char c => simp [hinst, hw]
    | ArrayRef i => simp [hinst, hw]
    | StructRef i => simp [hinst, hw]
    | Function p b => simp [hinst, hw]
    | LazyValue a cp => simp [hinst, hw]
    | LValue lv => simp [hinst, hw]

/-- Claim C4 (amended): a record field marked immutable rejects every write
through `field-set`, `field-set-reactive`, `store-through` and
`store-through-reactive`; a `store-through-immutable` write also fails
whenever the field's stored value is anything other than `Uninitialized` —
but when a field marked immutable still holds `Uninitialized` (see the
counterexample) the one-shot write succeeds and changes the stored value. -/
theorem C4_immutable_field_rejects_writes (fuel : Nat) (s₁ s₂ s₃ s₄ s₅ : VMState)
    (id : Nat) (f : String) (inst : StructInstance) (v₁ v₃ v₅ : Ty) (ast : AST)
    (r₁ r₂ r₃ r₄ r₅ : List Ty) (w : Ty)
    (hi₁ : s₁.heap[id]? = some inst)
    (hs₁ : s₁.stack = v₁ :: .LValue (.StructField id f) :: r₁)
    (hi₂ : s₂.heap[id]? = some inst)
    (hs₂ : s₂.stack = .LValue (.StructField id f) :: r₂)
    (hi₃ : s₃.heap[id]? = some inst)
    (hs₃ : s₃.stack = v₃ :: .StructRef id :: r₃)
    (hi₄ : s₄.heap[id]? = some inst)
    (hs₄ : s₄.stack = .StructRef id :: r₄)
    (hi₅ : s₅.heap[id]? = some inst)
    (hs₅ : s₅.stack = v₅ :: .LValue (.StructField id f) :: r₅)
    (himm : inst.immutables.contains f = true)
    (hw : alistGet inst.fields f = some w)
    (hwu : w ≠ .Uninitialized) :
    exec_store_through fuel s₁ = none ∧
      exec_store_through_reactive s₂ ast = none ∧
      exec_field_set (fuel + 2) s₃ f = none ∧
      exec_field_set_reactive (fuel + 2) s₄ f ast = none ∧
      store_through_immutable fuel s₅ = none :=
  ⟨store_through_immutable_field_none fuel s₁ id f inst v₁ r₁ hi₁ himm hs₁,
    reactive_through_immutable_field_none s₂ id f inst r₂ ast hi₂ himm hs₂,
    field_set_immutable_none fuel s₃ id f inst v₃ r₃ hi₃ himm hs₃,
    field_set_reactive_immutable_none fuel s₄ id f inst r₄ ast hi₄ himm hs₄,
    store_through_immutable_occupied_none fuel s₅ id f inst v₅ r₅ w hi₅ hw hwu hs₅⟩

/-- A record instance whose field `f` is marked immutable and holds
`Integer 1` (witness input for C4). -/
def C4_inst : StructInstance := { fields := [("f", Ty.Integer 1)], immutables := ["f"] }

/-- A machine holding `C4_inst` with a value and a path to `f` on the stack
(witness input for C4). -/
def C4_state_path : VMState :=
  { VM_new [] with
    heap := [C4_inst]
    stack := [Ty.Integer 2, Ty.LValue (.StructField 0 "f")] }

/-- Like `C4_state_path`, with the bare path on top (witness input for C4). -/
def C4_state_path1 : VMState :=
  { VM_new [] with heap := [C4_inst], stack := [Ty.LValue (.StructField 0 "f")] }

/-- Like `C4_state_path`, with a value and a struct ref (witness input for
C4). -/
def C4_state_ref : VMState :=
  { VM_new [] with heap := [C4_inst], stack := [Ty.Integer 2, Ty.StructRef 0] }

/-- Like `C4_state_path`, with a bare struct ref (witness input for C4). -/
def C4_state_ref1 : VMState :=
  { VM_new [] with heap := [C4_inst], stack := [Ty.StructRef 0] }

/-- Witness for C4 (amended): all five write forms fail on a concrete
machine whose field `f` is immutable and holds `Integer 1`. -/
theorem C4_witness :
    exec_store_through 3 C4_state_path = none ∧
      exec_store_through_reactive C4_state_path1 (.Number 0) = none ∧
      exec_field_set (3 + 2) C4_state_ref "f" = none ∧
      exec_field_set_reactive (3 + 2) C4_state_ref1 "f" (.Number 0) = none ∧
      store_through_immutable 3 C4_state_path = none :=
  C4_immutable_field_rejects_writes 3 C4_state_path C4_state_path1 C4_state_ref
    C4_state_ref1 C4_state_path 0 "f" C4_inst (Ty.Integer 2) (Ty.Integer 2)
    (Ty.Integer 2) (.Number 0) [] [] [] [] [] (Ty.Integer 1)
    rfl rfl rfl rfl rfl rfl rfl rfl rfl rfl rfl rfl (by simp)

/-- Claim C6 counterexample: cloning `ArrayRef 1` (whose element is
`ArrayRef 0`) yields the fresh id `2`, but the copy of the slot is shallow
over nested references: writing `99` through the clone's nested element
changes `array_heap[0]`, which is exactly the array still reachable from the
original — the subsequent read through the original yields `99`, not its
previous value `1`. -/
theorem C6_counterexample :
    C6_state.array_heap[0]? = some [.Integer 1] ∧
      (clone_value C6_state (.ArrayRef 1)).map Prod.fst = some (.ArrayRef 2) ∧
      ((clone_value C6_state (.ArrayRef 1)).bind (fun p => run 32 p.2)).map
          (fun s => (s.stack, s.array_heap[0]?)) =
        some ([.Integer 99], some [.Integer 99]) := ⟨rfl, rfl, rfl⟩

/-- Claim C6 (amended): cloning an `ArrayRef`/`StructRef` allocates a fresh
arena id disjoint from the source's id and copies the slot contents (for an
array together with its element-immutability set) — but the copy is *shallow*
over nested references, so only top-level mutations are independent: writing
into an element of the clone leaves the source's slot unchanged and vice
versa, while nested arrays or records reachable through refs stored in the
slot remain shared (see the counterexample). -/
theorem C6_clone_fresh_id_top_level_independent (s : VMState) (id sid i : Nat)
    (arr : List Ty) (imm : List Nat) (inst : StructInstance) (v : Ty)
    (ha : s.array_heap[id]? = some arr)
    (hi : s.array_immutables[id]? = some imm)
    (hs : s.heap[sid]? = some inst) :
    clone_value s (.ArrayRef id) =
        some (.ArrayRef s.array_heap.length,
          { s with
            array_heap := s.array_heap ++ [arr]
            array_immutables := s.array_immutables ++ [imm] }) ∧
      id ≠ s.array_heap.length ∧
      clone_value s (.StructRef sid) =
        some (.StructRef s.heap.length, { s with heap := s.heap ++ [inst] }) ∧
      sid ≠ s.heap.length ∧
      ((s.array_heap ++ [arr]).set s.array_heap.length (arr.set i v))[id]? =
        some arr ∧
      ((s.array_heap ++ [arr]).set id (arr.set i v))[s.array_heap.length]? =
        some arr := by
  have hlt : id < s.array_heap.length := (List.getElem?_eq_some.mp ha).1
  have hlt' : sid < s.heap.length := (List.getElem?_eq_some.mp hs).1
  refine ⟨?_, by omega, ?_, by omega, ?_, ?_⟩
  · simp [clone_value, ha, hi]
  · simp [clone_value, hs]
  · rw [List.getElem?_set_ne (by omega : s.array_heap.length ≠ id),
      List.getElem?_append_left hlt]
    exact ha
  · rw [List.getElem?_set_ne (by omega : id ≠ s.array_heap.length),
      List.getElem?_concat_length]

/-- A two-array, one-record machine used as the concrete input of the C6
witness. -/
def C6_witness_state : VMState :=
  { VM_new [] with
    array_heap := [[Ty.Integer 1]]
    array_immutables := [[0]]
    heap := [C4_inst] }

/-- Witness for C6 (amended) at a concrete machine. -/
theorem C6_witness :
    clone_value C6_witness_state (.ArrayRef 0) =
        some (.ArrayRef C6_witness_state.array_heap.length,
          { C6_witness_state with
            array_heap := C6_witness_state.array_heap ++ [[Ty.Integer 1]]
            array_immutables := C6_witness_state.array_immutables ++ [[0]] }) ∧
      0 ≠ C6_witness_state.array_heap.length ∧
      clone_value C6_witness_state (.StructRef 0) =
        some (.StructRef C6_witness_state.heap.length,
          { C6_witness_state with heap := C6_witness_state.heap ++ [C4_inst] }) ∧
      0 ≠ C6_witness_state.heap.length ∧
      ((C6_witness_state.array_heap ++ [[Ty.Integer 1]]).set
          C6_witness_state.array_heap.length ([Ty.Integer 1].set 0 (Ty.Integer 9)))[0]? =
        some [Ty.Integer 1] ∧
      ((C6_witness_state.array_heap ++ [[Ty.Integer 1]]).set 0
          ([Ty.Integer 1].set 0 (Ty.Integer 9)))[C6_witness_state.array_heap.length]? =
        some [Ty.Integer 1] :=
  C6_clone_fresh_id_top_level_independent C6_witness_state 0 0 0 [Ty.Integer 1]
    [0] C4_inst (Ty.Integer 9) rfl rfl rfl

theorem run_succ (n : Nat) (s : VMState) :
    run (n + 1) s = (match s.code[s.pointer]? with
      | none => some s
      | some instr =>
        match instr with
        | .Return => some s
        | .Jump label => do
          let tgt ← alistGet s.labels label
          run n { s with pointer := tgt }
        | .JumpIfZero label => do
          let (v, s₁) ← pop_int n s
          if v = 0 then do
            let tgt ← alistGet s₁.labels label
            run n { s₁ with pointer := tgt }
          else run n { s₁ with pointer := s₁.pointer + 1 }
        | _ => do
          let s₁ ← exec_instr n s instr
          run n { s₁ with pointer := s₁.pointer + 1 }) := rfl

theorem run_return (n : Nat) (s : VMState)
    (h : s.code[s.pointer]? = some .Return) : run (n + 1) s = some s := by
  rw [run_succ, h]

theorem exec_call_succ (n : Nat) (s : VMState) (name : String) (argc : Nat) :
    exec_call (n + 1) s name argc = (do
      let (args, s₁) ← pop_args argc s
      let f ← alistGet s₁.global_env name
      match f with
      | .Function params body => do
        let (ret, s₂) ← call_function n s₁ (.Function params body) args
        some { s₂ with stack := ret :: s₂.stack }
      | _ => none) := rfl

theorem call_function_succ (n : Nat) (s : VMState) (params : List String)
    (body : List AST) (args : List Ty) :
    call_function (n + 1) s (.Function params body) args = (do
      let base ← s.immutable_stack.getLast?
      let scope := param_scope params args
      let body_code ← compile_function_body body
      let labels := build_labels body_code
      let frame : CallFrame :=
        { code := s.code
          labels := s.labels
          pointer := s.pointer
          local_env := s.local_env
          immutable_stack := s.immutable_stack
          stack_base := s.stack.length }
      let s₁ :=
        { s with
          code := body_code
          labels := labels
          pointer := 0
          local_env := some []
          immutable_stack := [scope, base]
          call_stack := frame :: s.call_stack }
      let s₂ ← run n s₁
      pop_frame s₂) := rfl

/-- Claim C9: `call(name, argc)` fails only when the name is unbound in the
global map or bound to a non-function; there is no arity check — parameters
are zipped with arguments, so extra trailing arguments are silently dropped
and unmatched parameters are simply never bound in the callee's parameter
frame.  With a trivial body, the call succeeds for *any* relation between
`argc` and the parameter count and returns `Integer 0`. -/
theorem C9_call_has_no_arity_check (fuel : Nat) (s : VMState)
    (name gname kname p : String) (params : List String) (args rest : List Ty)
    (base : Env) (w : Ty)
    (hf : alistGet s.global_env name = some (.Function params []))
    (hbase : s.immutable_stack.getLast? = some base)
    (hstack : s.stack = args.reverse ++ rest)
    (hg : alistGet s.global_env gname = none)
    (hk : alistGet s.global_env kname = some w)
    (hknf : ∀ ps b, w ≠ .Function ps b)
    (hp : p ∉ params.take args.length) :
    exec_call (fuel + 3) s name args.length =
        some { s with stack := .Integer 0 :: rest } ∧
      exec_call (fuel + 3) s gname args.length = none ∧
      exec_call (fuel + 3) s kname args.length = none ∧
      param_scope params args = param_scope params (args.take params.length) ∧
      alistGet (param_scope params args) p = none := by
  have hpa := pop_args_reverse_append args rest s hstack
  refine ⟨?_, ?_, ?_, ?_, param_scope_not_mem_take params args p hp⟩
  · rw [show fuel + 3 = (fuel + 2) + 1 from rfl, exec_call_succ, hpa,
      show fuel + 2 = (fuel + 1) + 1 from rfl]
    simp [hf, call_function_succ, hbase, pop_frame, run_return,
      Option.bind_eq_bind', Option.some_bind', compile_function_body,
      compile_list, Nat.lt_irrefl]
  · rw [show fuel + 3 = (fuel + 2) + 1 from rfl, exec_call_succ, hpa]
    simp [hg, Option.bind_eq_bind', Option.some_bind']
  · rw [show fuel + 3 = (fuel + 2) + 1 from rfl, exec_call_succ, hpa]
    cases w with
    | Function ps b => exact absurd rfl (hknf ps b)
    | Integer k => simp [hk, Option.bind_eq_bind', Option.some_bind']
    | Char c => simp [hk, Option.bind_eq_bind', Option.some_bind']
    | ArrayRef i => simp [hk, Option.bind_eq_bind', Option.some_bind']
    | StructRef i => simp [hk, Option.bind_eq_bind', Option.some_bind']
    | LazyValue a cp => simp [hk, Option.bind_eq_bind', Option.some_bind']
    | LValue lv => simp [hk, Option.bind_eq_bind', Option.some_bind']
    | Uninitialized => simp [hk, Option.bind_eq_bind', Option.some_bind']
  · simp only [param_scope]
    rw [zip_take_length]

/-- A machine with a two-parameter function `f`, a non-function binding `k`,
and three pushed arguments (witness input for C9). -/
def C9_state : VMState :=
  { VM_new [] with
    global_env := [("f", Ty.Function ["p", "q"] []), ("k", Ty.Integer 3)]
    stack := [Ty.Integer 7, Ty.Integer 6, Ty.Integer 5] }

/-- Witness for C9: calling `f` with three arguments (one too many) succeeds
and pushes `Integer 0`; unknown and non-function names fail; the extra
argument is discarded and the name `z` stays unbound. -/
theorem C9_witness :
    exec_call (0 + 3) C9_state "f" [Ty.Integer 5, Ty.Integer 6, Ty.Integer 7].length =
        some { C9_state with stack := [Ty.Integer 0] } ∧
      exec_call (0 + 3) C9_state "g" [Ty.Integer 5, Ty.Integer 6, Ty.Integer 7].length = none ∧
      exec_call (0 + 3) C9_state "k" [Ty.Integer 5, Ty.Integer 6, Ty.Integer 7].length = none ∧
      param_scope ["p", "q"] [Ty.Integer 5, Ty.Integer 6, Ty.Integer 7] =
        param_scope ["p", "q"]
          ([Ty.Integer 5, Ty.Integer 6, Ty.Integer 7].take ["p", "q"].length) ∧
      alistGet (param_scope ["p", "q"] [Ty.Integer 5, Ty.Integer 6, Ty.Integer 7]) "z" =
        none :=
  C9_call_has_no_arity_check 0 C9_state "f" "g" "k" "z" ["p", "q"]
    [Ty.Integer 5, Ty.Integer 6, Ty.Integer 7] [] [] (Ty.Integer 3)
    rfl rfl rfl rfl rfl (fun ps b h => Ty.noConfusion h) (by decide)

/-- The instance produced by a reactive write through a struct-field path
(`exec_store_through_reactive`): the frozen thunk is stored *and* the field
is inserted into the immutable set. -/
def reactive_marked (inst : StructInstance) (f : String) (frames : List Env)
    (ast : AST) : StructInstance :=
  { inst with
    fields := alistInsert inst.fields f
      (.LazyValue (freeze_ast frames ast)
        (capture_immutables_for_ast frames (freeze_ast frames ast)))
    immutables := setInsert inst.immutables f }

/-- The instance produced by `field-set-reactive`: the frozen thunk is
stored but the immutable set is untouched. -/
def reactive_unmarked (inst : StructInstance) (f : String) (frames : List Env)
    (ast : AST) : StructInstance :=
  { inst with
    fields := alistInsert inst.fields f
      (.LazyValue (freeze_ast frames ast)
        (capture_immutables_for_ast frames (freeze_ast frames ast))) }

theorem field_set_reactive_success (fuel : Nat) (s : VMState) (id : Nat)
    (f : String) (inst : StructInstance) (rest : List Ty) (ast : AST)
    (hinst : s.heap[id]? = some inst)
    (hni : inst.immutables.contains f = false)
    (hstack : s.stack = .StructRef id :: rest) :
    exec_field_set_reactive (fuel + 2) s f ast =
      some { s with
        stack := rest
        heap := s.heap.set id (reactive_unmarked inst f s.immutable_stack ast) } := by
  have hni' : f ∉ inst.immutables := by simpa using hni
  rw [show fuel + 2 = (fuel + 1) + 1 from rfl, exec_field_set_reactive_succ]
  simp only [pop, hstack, Option.bind_eq_bind', Option.some_bind']
  rw [force_succ_structref, Option.some_bind']
  simp [hinst, hni', reactive_unmarked]

/-- Claim C10: a reactive write through an lvalue path to a struct field
(`store-through-reactive`) stores the thunk *and* marks the field immutable,
so every subsequent write to it — through any of the five write forms —
fails; by contrast `field-set-reactive` stores the thunk without marking the
field, leaves the immutable set unchanged, and may be repeated. -/
theorem C10_reactive_path_write_freezes_field (fuel : Nat) (s t : VMState)
    (id : Nat) (f : String) (inst M U : StructInstance) (w v : Ty)
    (ast ast₂ : AST) (rest r₂ : List Ty)
    (hinst : s.heap[id]? = some inst)
    (hw : alistGet inst.fields f = some w)
    (hni : inst.immutables.contains f = false)
    (hstack : s.stack = .LValue (.StructField id f) :: rest)
    (hM : M = reactive_marked inst f s.immutable_stack ast)
    (hU : U = reactive_unmarked inst f s.immutable_stack ast)
    (ht : t = { s with stack := rest, heap := s.heap.set id M }) :
    exec_store_through_reactive s ast =
        some { s with
          stack := rest
          heap := s.heap.set id M } ∧
      (s.heap.set id M)[id]? = some M ∧
      M.immutables.contains f = true ∧
      exec_store_through fuel
          { t with stack := v :: .LValue (.StructField id f) :: r₂ } = none ∧
      exec_store_through_reactive
          { t with stack := .LValue (.StructField id f) :: r₂ } ast₂ = none ∧
      exec_field_set (fuel + 2) { t with stack := v :: .StructRef id :: r₂ } f = none ∧
      exec_field_set_reactive (fuel + 2)
          { t with stack := .StructRef id :: r₂ } f ast₂ = none ∧
      store_through_immutable fuel
          { t with stack := v :: .LValue (.StructField id f) :: r₂ } = none ∧
      exec_field_set_reactive (fuel + 2) { s with stack := .StructRef id :: rest } f ast =
        some { s with
          stack := rest
          heap := s.heap.set id U } ∧
      U.immutables = inst.immutables ∧
      exec_field_set_reactive (fuel + 2)
          { s with stack := .StructRef id :: rest, heap := s.heap.set id U } f ast₂ =
        some { s with
          stack := rest
          heap := (s.heap.set id U).set id (reactive_unmarked U f s.immutable_stack ast₂) } := by
  subst hM hU ht
  have hni' : f ∉ inst.immutables := by simpa using hni
  have hlt : id < s.heap.length := (List.getElem?_eq_some.mp hinst).1
  have h2 : (s.heap.set id (reactive_marked inst f s.immutable_stack ast))[id]? =
      some (reactive_marked inst f s.immutable_stack ast) :=
    List.getElem?_set_eq_of_lt _ hlt
  have h3 : (reactive_marked inst f s.immutable_stack ast).immutables.contains f = true :=
    setInsert_contains_self _ _
  have hwM : alistGet (reactive_marked inst f s.immutable_stack ast).fields f =
      some (.LazyValue (freeze_ast s.immutable_stack ast)
        (capture_immutables_for_ast s.immutable_stack (freeze_ast s.immutable_stack ast))) :=
    alistGet_insert_self _ _ _
  have hU2lt : id < (s.heap.set id (reactive_unmarked inst f s.immutable_stack ast)).length := by
    simpa using hlt
  have hU2 : ((s.heap.set id (reactive_unmarked inst f s.immutable_stack ast)))[id]? =
      some (reactive_unmarked inst f s.immutable_stack ast) :=
    List.getElem?_set_eq_of_lt _ hlt
  refine ⟨?_, h2, h3, ?_, ?_, ?_, ?_, ?_, ?_, rfl, ?_⟩
  · simp [exec_store_through_reactive, pop, hstack, hinst, hw, hni, hni',
      reactive_marked, Option.bind_eq_bind', Option.some_bind']
  · exact store_through_immutable_field_none fuel _ id f
      (reactive_marked inst f s.immutable_stack ast) v r₂ h2 h3 rfl
  · exact reactive_through_immutable_field_none _ id f
      (reactive_marked inst f s.immutable_stack ast) r₂ ast₂ h2 h3 rfl
  · exact field_set_immutable_none fuel _ id f
      (reactive_marked inst f s.immutable_stack ast) v r₂ h2 h3 rfl
  · exact field_set_reactive_immutable_none fuel _ id f
      (reactive_marked inst f s.immutable_stack ast) r₂ ast₂ h2 h3 rfl
  · exact store_through_immutable_occupied_none fuel _ id f
      (reactive_marked inst f s.immutable_stack ast) v r₂ _ h2 hwM
      (fun h => Ty.noConfusion h) rfl
  · exact field_set_reactive_success fuel _ id f inst rest ast hinst hni rfl
  · exact field_set_reactive_success fuel _ id f
      (reactive_unmarked inst f s.immutable_stack ast) rest ast₂ hU2 hni rfl

/-- A record instance with one mutable field `f` (witness input for C10). -/
def C10_inst : StructInstance := { fields := [("f", Ty.Integer 0)], immutables := [] }

/-- A machine holding `C10_inst` with a path to `f` on the stack (witness
input for C10). -/
def C10_state : VMState :=
  { VM_new [] with
    heap := [C10_inst]
    stack := [Ty.LValue (.StructField 0 "f")] }

/-- `C10_state` after the reactive path write has marked and frozen `f`
(witness input for C10). -/
def C10_after : VMState :=
  { C10_state with
    stack := []
    heap := C10_state.heap.set 0
      (reactive_marked C10_inst "f" C10_state.immutable_stack (.Number 7)) }

/-- Witness for C10 at a concrete machine: the reactive path write marks the
field and freezes it against all five write forms, while `field-set-reactive`
leaves it unmarked and repeatable. -/
theorem C10_witness :
    exec_store_through_reactive C10_state (.Number 7) =
        some { C10_state with
          stack := []
          heap := C10_state.heap.set 0
            (reactive_marked C10_inst "f" C10_state.immutable_stack (.Number 7)) } ∧
      (C10_state.heap.set 0
          (reactive_marked C10_inst "f" C10_state.immutable_stack (.Number 7)))[0]? =
        some (reactive_marked C10_inst "f" C10_state.immutable_stack (.Number 7)) ∧
      (reactive_marked C10_inst "f" C10_state.immutable_stack (.Number 7)).immutables.contains "f" = true ∧
      exec_store_through 3
          { C10_after with stack := [Ty.Integer 1, Ty.LValue (.StructField 0 "f")] } = none ∧
      exec_store_through_reactive
          { C10_after with stack := [Ty.LValue (.StructField 0 "f")] } (.Number 8) = none ∧
      exec_field_set (3 + 2) { C10_after with stack := [Ty.Integer 1, Ty.StructRef 0] } "f" = none ∧
      exec_field_set_reactive (3 + 2) { C10_after with stack := [Ty.StructRef 0] } "f" (.Number 8) = none ∧
      store_through_immutable 3
          { C10_after with stack := [Ty.Integer 1, Ty.LValue (.StructField 0 "f")] } = none ∧
      exec_field_set_reactive (3 + 2) { C10_state with stack := [Ty.StructRef 0] } "f" (.Number 7) =
        some { C10_state with
          stack := []
          heap := C10_state.heap.set 0
            (reactive_unmarked C10_inst "f" C10_state.immutable_stack (.Number 7)) } ∧
      (reactive_unmarked C10_inst "f" C10_state.immutable_stack (.Number 7)).immutables =
        C10_inst.immutables ∧
      exec_field_set_reactive (3 + 2)
          { C10_state with
            stack := [Ty.StructRef 0]
            heap := C10_state.heap.set 0
              (reactive_unmarked C10_inst "f" C10_state.immutable_stack (.Number 7)) } "f" (.Number 8) =
        some { C10_state with
          stack := []
          heap := (C10_state.heap.set 0
              (reactive_unmarked C10_inst "f" C10_state.immutable_stack (.Number 7))).set 0
            (reactive_unmarked
              (reactive_unmarked C10_inst "f" C10_state.immutable_stack (.Number 7)) "f"
              C10_state.immutable_stack (.Number 8)) } :=
  C10_reactive_path_write_freezes_field 3 C10_state C10_after 0 "f" C10_inst
    (reactive_marked C10_inst "f" C10_state.immutable_stack (.Number 7))
    (reactive_unmarked C10_inst "f" C10_state.immutable_stack (.Number 7))
    (Ty.Integer 0) (Ty.Integer 1) (.Number 7) (.Number 8) [] []
    rfl rfl rfl rfl rfl rfl rfl

end ReactiveVM
